import Mathlib

/-!
Verification of the frankfurter-mcp-server response-formatting, truncation,
error-mapping and tool-dispatch logic, as a shallow embedding of the
TypeScript sources (`src/constants.ts`, `src/types.ts`,
`src/services/formatter.ts`, `src/services/frankfurter-client.ts`,
`src/index.ts`).

Conventions of the embedding:
* JavaScript strings become Lean `String`; `s.length` (UTF-16 code units)
  becomes `String.length` (code points) — the sources only measure lengths
  of strings they built themselves, where the two agree on the claims at
  issue, and the spec declares the measurement unit non-load-bearing.
* JavaScript objects in payload position become association lists
  `List (String × _)` in insertion order; property access becomes `jsGet`.
* JavaScript numbers in payloads become exact rationals `Rat` where
  arithmetic is performed, and verbatim numeric tokens where JSON
  serialization is concerned (a JS engine prints each double as one
  canonical shortest decimal token, and `JSON.parse` of that token returns
  the same double; the token is that canonical form).
* Fallible JS evaluation (a thrown `TypeError`) becomes `Except String`.
-/

set_option maxRecDepth 8192

namespace Frankfurter

/-! ### Constants (src/constants.ts) -/

/-- `CHARACTER_LIMIT` from src/constants.ts: character limit for responses. -/
def CHARACTER_LIMIT : Nat := 25000

/-- `API_TIMEOUT` from src/constants.ts (milliseconds). -/
def API_TIMEOUT : Nat := 10000

/-- `API_BASE_URL` from src/constants.ts. -/
def API_BASE_URL : String := "https://api.frankfurter.dev/v1"

/-- `ResponseFormat` enum from src/constants.ts. -/
inductive ResponseFormat where
  | json
  | markdown
deriving DecidableEq

/-! ### Types (src/types.ts) -/

/-- `TruncationMeta` from src/types.ts. -/
structure TruncationMeta where
  truncated : Bool
  truncation_message : Option String := none
  original_length : Option Nat := none
deriving DecidableEq

/-- `FrankfurterBaseResponse` from src/types.ts; the `rates` record is an
insertion-ordered association list, values are the exact rationals denoted
by the upstream JSON numbers. -/
structure FrankfurterBaseResponse where
  base : String
  date : String
  rates : List (String × Rat)

/-- `FrankfurterTimeSeriesResponse` from src/types.ts. -/
structure FrankfurterTimeSeriesResponse where
  base : String
  start_date : String
  end_date : String
  rates : List (String × List (String × Rat))

/-! ### JavaScript string and object primitives used by the sources -/

/-- JS `content.substring(0, n)`: the first `n` characters of `s`. -/
def jsSubstring (s : String) (n : Nat) : String :=
  String.mk (s.data.take n)

/-- JS property read `o[k]` on an object modelled as an insertion-ordered
association list: the value at key `k`, or `none` (JS `undefined`). -/
def jsGet {V : Type} (k : String) : List (String × V) → Option V
  | [] => none
  | (k', v) :: rest => if k' = k then some v else jsGet k rest

/-! ### Truncation (src/services/formatter.ts, `truncateIfNeeded`) -/

/-- The Markdown truncation notice appended by `truncateIfNeeded`
(src/services/formatter.ts lines 151–155), with `CHARACTER_LIMIT`
interpolated as in the source. -/
def markdownTruncationNotice : String :=
  "\n\n---\n\n**Note:** Response was truncated due to size limit (25000 characters). " ++
  "To see more data, try:\n" ++
  "- Narrowing the date range\n" ++
  "- Filtering with the \x27symbols\x27 parameter\n" ++
  "- Using pagination parameters\n"

/-- The JSON truncation notice appended by `truncateIfNeeded`
(src/services/formatter.ts line 156). -/
def jsonTruncationNotice : String :=
  "\n\n[TRUNCATED: Response exceeded character limit]"

/-- The notice `truncateIfNeeded` selects for each format. -/
def truncationNotice : ResponseFormat → String
  | .markdown => markdownTruncationNotice
  | .json => jsonTruncationNotice

/-- `truncateIfNeeded` from src/services/formatter.ts (lines 135–166):
returns the content unchanged when within `CHARACTER_LIMIT`, otherwise the
hard prefix of `CHARACTER_LIMIT` characters followed by the format-specific
notice, with metadata recording the original length. -/
def truncateIfNeeded (content : String) (format : ResponseFormat) :
    String × TruncationMeta :=
  if content.length ≤ CHARACTER_LIMIT then
    (content, { truncated := false })
  else
    let truncated := jsSubstring content CHARACTER_LIMIT
    let truncationMessage := truncationNotice format
    (truncated ++ truncationMessage,
     { truncated := true,
       truncation_message :=
         some "Response exceeded character limit and was truncated",
       original_length := some content.length })

/-! ### Basic facts about truncation -/

theorem string_data_length (s : String) : s.data.length = s.length := rfl

theorem jsSubstring_length (s : String) (n : Nat) (h : n ≤ s.length) :
    (jsSubstring s n).length = n := by
  simp only [jsSubstring, String.length_mk, List.length_take,
    string_data_length]
  omega

theorem truncationNotice_length_pos (format : ResponseFormat) :
    0 < (truncationNotice format).length := by
  cases format <;> decide

theorem truncateIfNeeded_short (content : String) (format : ResponseFormat)
    (h : content.length ≤ CHARACTER_LIMIT) :
    truncateIfNeeded content format = (content, { truncated := false }) := by
  simp [truncateIfNeeded, h]

theorem truncateIfNeeded_long (content : String) (format : ResponseFormat)
    (h : CHARACTER_LIMIT < content.length) :
    truncateIfNeeded content format =
      (jsSubstring content CHARACTER_LIMIT ++ truncationNotice format,
       { truncated := true,
         truncation_message :=
           some "Response exceeded character limit and was truncated",
         original_length := some content.length }) := by
  simp [truncateIfNeeded, Nat.not_le.mpr h]

theorem truncateIfNeeded_long_length (content : String)
    (format : ResponseFormat) (h : CHARACTER_LIMIT < content.length) :
    (truncateIfNeeded content format).1.length =
      CHARACTER_LIMIT + (truncationNotice format).length := by
  rw [truncateIfNeeded_long content format h]
  simp only [String.length_append]
  rw [jsSubstring_length content CHARACTER_LIMIT (Nat.le_of_lt h)]

/-- A concrete oversized content sample: 25001 copies of `a`. -/
def bigContent : String := String.mk (List.replicate 25001 'a')

theorem bigContent_length : bigContent.length = 25001 := by
  rw [bigContent, String.length_mk, List.length_replicate]

theorem bigContent_long : CHARACTER_LIMIT < bigContent.length := by
  rw [bigContent_length]; decide

/-- **C2**: for `length ≤ 25000`, `truncateIfNeeded` returns the content
unchanged with `truncated = false`; for `length > 25000` the returned text
is exactly the first 25000 characters followed by the format-specific
notice, its length is `25000` plus the notice length, and the metadata
records `truncated = true` and the pre-truncation `original_length`. -/
theorem truncateIfNeeded_spec (content : String) (format : ResponseFormat) :
    (content.length ≤ CHARACTER_LIMIT →
      truncateIfNeeded content format = (content, { truncated := false })) ∧
    (CHARACTER_LIMIT < content.length →
      (truncateIfNeeded content format).1 =
        jsSubstring content CHARACTER_LIMIT ++ truncationNotice format ∧
      (truncateIfNeeded content format).1.length =
        CHARACTER_LIMIT + (truncationNotice format).length ∧
      (truncateIfNeeded content format).2.truncated = true ∧
      (truncateIfNeeded content format).2.original_length =
        some content.length) := by
  constructor
  · exact truncateIfNeeded_short content format
  · intro h
    refine ⟨?_, truncateIfNeeded_long_length content format h, ?_, ?_⟩ <;>
      rw [truncateIfNeeded_long content format h]

/-- Witness for `truncateIfNeeded_spec`: both branches at concrete inputs. -/
theorem truncateIfNeeded_spec_witness :
    ((("abc" : String).length ≤ CHARACTER_LIMIT) ∧
      truncateIfNeeded "abc" ResponseFormat.markdown =
        ("abc", { truncated := false })) ∧
    ((CHARACTER_LIMIT < bigContent.length) ∧
      (truncateIfNeeded bigContent ResponseFormat.json).2.truncated = true ∧
      (truncateIfNeeded bigContent ResponseFormat.json).2.original_length =
        some bigContent.length) :=
  ⟨⟨by decide,
    (truncateIfNeeded_spec "abc" ResponseFormat.markdown).1 (by decide)⟩,
   ⟨bigContent_long,
    ((truncateIfNeeded_spec bigContent ResponseFormat.json).2
        bigContent_long).2.2.1,
    ((truncateIfNeeded_spec bigContent ResponseFormat.json).2
        bigContent_long).2.2.2⟩⟩

/-- **C3 counterexample**: for a 25001-character content in JSON format,
the first truncated output's length (25000 plus the notice length) is
within the claim's allowance, yet re-truncating it reports
`truncated = true`, not `false` as the claim requires. -/
theorem truncate_not_idempotent_counterexample :
    (truncateIfNeeded bigContent ResponseFormat.json).1.length ≤
      CHARACTER_LIMIT + (truncationNotice ResponseFormat.json).length ∧
    (truncateIfNeeded (truncateIfNeeded bigContent ResponseFormat.json).1
        ResponseFormat.json).2.truncated = true := by
  have hlen :=
    truncateIfNeeded_long_length bigContent ResponseFormat.json bigContent_long
  refine ⟨le_of_eq hlen, ?_⟩
  have hgt : CHARACTER_LIMIT <
      (truncateIfNeeded bigContent ResponseFormat.json).1.length := by
    rw [hlen]
    have := truncationNotice_length_pos ResponseFormat.json
    omega
  rw [truncateIfNeeded_long _ ResponseFormat.json hgt]

/-- **C3 (amended)**: the second application of `truncateIfNeeded` reports
`truncated = false` exactly when the first application did not truncate;
output the first application actually truncated has length
`25000 + notice length > 25000` and is truncated again on re-application,
so its flag stays `true`. -/
theorem truncate_retruncation_flag (content : String)
    (format : ResponseFormat) :
    (truncateIfNeeded (truncateIfNeeded content format).1 format).2.truncated =
      (truncateIfNeeded content format).2.truncated := by
  by_cases h : content.length ≤ CHARACTER_LIMIT
  · rw [truncateIfNeeded_short content format h]
    rw [truncateIfNeeded_short content format h]
  · have h' : CHARACTER_LIMIT < content.length := Nat.not_le.mp h
    have hlen := truncateIfNeeded_long_length content format h'
    have hgt : CHARACTER_LIMIT <
        (truncateIfNeeded content format).1.length := by
      rw [hlen]
      have := truncationNotice_length_pos format
      omega
    rw [truncateIfNeeded_long _ format hgt]
    rw [truncateIfNeeded_long content format h']

/-! ### HTTP error mapping (src/services/frankfurter-client.ts,
`handleApiError`) -/

/-- The shape of an Axios failure as far as `handleApiError` inspects it:
a timeout (`error.code === "ECONNABORTED"`), a response with a non-2xx
status, a request that got no response, or anything else. -/
inductive AxiosFailure where
  | timeout
  | response (status : Nat) (statusText : String)
  | noResponse
  | other (message : String)

/-- Message for a 404 response (src/services/frankfurter-client.ts). -/
def resourceNotFoundMessage : String :=
  "The requested resource was not found. Please check your date range and currency codes."

/-- Message for a 429 response. -/
def rateLimitedMessage : String :=
  "Rate limit exceeded. Please wait a moment before making more requests."

/-- Message for a 500, 502 or 503 response. -/
def upstreamDegradedMessage : String :=
  "The Frankfurter API is currently experiencing issues. Please try again later."

/-- Generic message for any other status. -/
def genericStatusMessage (status : Nat) (statusText : String) : String :=
  "API request failed with status " ++ Nat.repr status ++ ": " ++ statusText

/-- `handleApiError` from src/services/frankfurter-client.ts (lines 52–91);
the `switch (status)` with cases 404, 429, 500, 502, 503 and a default
becomes the corresponding decision chain. -/
def handleApiError : AxiosFailure → String
  | .timeout =>
      "Request timeout: The Frankfurter API did not respond within 10 seconds. Please try again."
  | .response status statusText =>
      if status = 404 then resourceNotFoundMessage
      else if status = 429 then rateLimitedMessage
      else if status = 500 ∨ status = 502 ∨ status = 503 then
        upstreamDegradedMessage
      else genericStatusMessage status statusText
  | .noResponse =>
      "Unable to connect to the Frankfurter API. Please check your internet connection."
  | .other message => "An unexpected error occurred: " ++ message

/-- **C5 counterexample**: 501 is a 5xx status, but `handleApiError` maps
it to the generic status message, not the upstream-degraded message the
claim requires for every 5xx status. -/
theorem handleApiError_5xx_counterexample :
    500 ≤ 501 ∧ 501 < 600 ∧
    handleApiError (.response 501 "Not Implemented") ≠
      upstreamDegradedMessage ∧
    handleApiError (.response 501 "Not Implemented") =
      genericStatusMessage 501 "Not Implemented" := by
  refine ⟨by decide, by decide, by decide, by decide⟩

/-- **C5 (amended)**: `handleApiError` maps 404 to the resource-not-found
message, 429 to the rate-limited message, exactly the statuses 500, 502
and 503 to the upstream-degraded message, and every other status to the
generic message carrying the status number and reason. -/
theorem handleApiError_status_mapping (status : Nat) (statusText : String) :
    (status = 404 →
      handleApiError (.response status statusText) =
        resourceNotFoundMessage) ∧
    (status = 429 →
      handleApiError (.response status statusText) = rateLimitedMessage) ∧
    (status = 500 ∨ status = 502 ∨ status = 503 →
      handleApiError (.response status statusText) =
        upstreamDegradedMessage) ∧
    (status ≠ 404 → status ≠ 429 → status ≠ 500 → status ≠ 502 →
      status ≠ 503 →
      handleApiError (.response status statusText) =
        genericStatusMessage status statusText) := by
  refine ⟨?_, ?_, ?_, ?_⟩
  · rintro rfl; rfl
  · rintro rfl; rfl
  · rintro (rfl | rfl | rfl) <;> rfl
  · intro h1 h2 h3 h4 h5
    simp [handleApiError, h1, h2, h3, h4, h5]

/-- Witness for `handleApiError_status_mapping`: the 404 branch at 404 and
the default branch at 504. -/
theorem handleApiError_status_mapping_witness :
    handleApiError (.response 404 "Not Found") = resourceNotFoundMessage ∧
    handleApiError (.response 504 "Gateway Timeout") =
      genericStatusMessage 504 "Gateway Timeout" :=
  ⟨(handleApiError_status_mapping 404 "Not Found").1 rfl,
   (handleApiError_status_mapping 504 "Gateway Timeout").2.2.2
     (by decide) (by decide) (by decide) (by decide) (by decide)⟩

/-! ### Numeric display (JS `Number.prototype.toFixed`) -/

/-- Decimal digits of a natural number, most significant first.  Fuel-based
structural recursion so concrete instances evaluate in the kernel. -/
def natDigitsAux : Nat → Nat → List Char
  | 0, _ => []
  | fuel + 1, n =>
    if n < 10 then [Char.ofNat (48 + n)]
    else natDigitsAux fuel (n / 10) ++ [Char.ofNat (48 + n % 10)]

/-- Decimal digit list of a natural number. -/
def natDigits (n : Nat) : List Char := natDigitsAux (n + 1) n

/-- Left-pad a digit list with `0` to the given length. -/
def padLeftZeros (s : List Char) (len : Nat) : List Char :=
  List.replicate (len - s.length) '0' ++ s

/-- `x.toFixed(d)` for a nonnegative value: round half-up to `d` decimals
and print with exactly `d` fractional digits.  (The spec declares exact
tie-breaking non-contractual; half-up on the exact rational is used.) -/
def toFixedPos (q : Rat) (d : Nat) : String :=
  let scaled : Nat := (Rat.floor (q * ((10 : Rat) ^ d) + 1 / 2)).toNat
  let s := padLeftZeros (natDigits scaled) (d + 1)
  if d = 0 then String.mk s
  else
    String.mk (s.take (s.length - d)) ++ "." ++ String.mk (s.drop (s.length - d))

/-- JS `x.toFixed(d)` on an exact rational. -/
def toFixed (q : Rat) (d : Nat) : String :=
  if q < 0 then "-" ++ toFixedPos (-q) d else toFixedPos q d

/-! ### Markdown renderers (src/services/formatter.ts) -/

/-- `formatRatesAsMarkdown` from src/services/formatter.ts (lines 25–42):
heading, date line, then one table row per entry of `rates` in iteration
(insertion) order. -/
def formatRatesAsMarkdown (rates : List (String × Rat)) (base : String)
    (date : String) : String :=
  "## Exchange Rates for " ++ base ++ "\n\n" ++
  "**Date:** " ++ date ++ "\n\n" ++
  "| Currency | Rate |\n" ++
  "|----------|------|\n" ++
  String.join
    (rates.map (fun e => "| " ++ e.1 ++ " | " ++ toFixed e.2 4 ++ " |\n"))

/-- `Object.keys(rates).sort()` in `formatTimeSeriesAsMarkdown`: the date
keys sorted by the default (code-unit lexicographic) string order. -/
def tsSortedDates (rates : List (String × List (String × Rat))) :
    List String :=
  List.insertionSort (· ≤ ·) (rates.map Prod.fst)

/-- One cell of the time-series table: the rate at `symbol` rendered with
`toFixed 4`, or the literal token `N/A` when the symbol is absent for that
date (`rate !== undefined ? rate.toFixed(4) : "N/A"`). -/
def tsCell (dateRates : List (String × Rat)) (symbol : String) : String :=
  match jsGet symbol dateRates with
  | some rate => toFixed rate 4
  | none => "N/A"

/-- One data row of the time-series table for a given date. -/
def tsRow (rates : List (String × List (String × Rat)))
    (symbols : List String) (date : String) : String :=
  let dateRates := (jsGet date rates).getD []
  "| " ++ date ++ " | " ++
    String.intercalate " | " (symbols.map (tsCell dateRates)) ++ " |\n"

/-- Header lines of the time-series table: heading, symbols line, table
header row and separator row, one column per requested symbol. -/
def tsHeader (base : String) (symbols : List String) : String :=
  "## Time Series Exchange Rates for " ++ base ++ "\n\n" ++
  "**Symbols:** " ++ String.intercalate ", " symbols ++ "\n\n" ++
  "| Date | " ++ String.intercalate " | " symbols ++ " |\n" ++
  "|------|" ++
    String.intercalate "|" (symbols.map (fun _ => "------")) ++ "|\n"

/-- `formatTimeSeriesAsMarkdown` from src/services/formatter.ts
(lines 51–76): header followed by one row per date key, dates sorted
ascending. -/
def formatTimeSeriesAsMarkdown (rates : List (String × List (String × Rat)))
    (base : String) (symbols : List String) : String :=
  tsHeader base symbols ++
    String.join ((tsSortedDates rates).map (tsRow rates symbols))

/-- `formatConversionAsMarkdown` from src/services/formatter.ts
(lines 88–102). -/
def formatConversionAsMarkdown (from_ to_ : String)
    (amount rate result : Rat) (date : String) : String :=
  "## Currency Conversion\n\n" ++
  "**" ++ toFixed amount 2 ++ " " ++ from_ ++ " = " ++
    toFixed result 2 ++ " " ++ to_ ++ "**\n\n" ++
  "- Exchange Rate: " ++ toFixed rate 4 ++ "\n" ++
  "- Date: " ++ date ++ "\n"

/-- `formatCurrenciesAsMarkdown` from src/services/formatter.ts
(lines 109–127); `localeCompare` on ASCII currency codes coincides with
code-unit order, modelled by the `String` linear order. -/
def formatCurrenciesAsMarkdown (currencies : List (String × String)) :
    String :=
  let entries := List.insertionSort (fun a b => a.1 ≤ b.1) currencies
  "## Available Currencies\n\n" ++
  "| Code | Name |\n" ++
  "|------|------|\n" ++
  String.join (entries.map (fun e => "| " ++ e.1 ++ " | " ++ e.2 ++ " |\n")) ++
  "\n**Total:** " ++ Nat.repr entries.length ++ " currencies\n"

/-! ### Facts about the time-series renderer -/

theorem jsGet_perm {V : Type} (k : String)
    {l l' : List (String × V)} (h : l.Perm l')
    (nd : (l.map Prod.fst).Nodup) : jsGet k l = jsGet k l' := by
  induction h with
  | nil => rfl
  | cons x _ ih =>
      simp only [List.map_cons, List.nodup_cons] at nd
      simp only [jsGet]
      rw [ih nd.2]
  | swap x y l =>
      simp only [List.map_cons, List.nodup_cons, List.mem_cons] at nd
      have hxy : y.1 ≠ x.1 := fun e => nd.1 (Or.inl e)
      by_cases hy : y.1 = k <;> by_cases hx : x.1 = k
      · exact absurd (hy.trans hx.symm) hxy
      all_goals simp [jsGet, hy, hx]
  | trans h₁ _ ih₁ ih₂ =>
      rw [ih₁ nd]
      exact ih₂ ((h₁.map Prod.fst).nodup_iff.mp nd)

theorem tsSortedDates_perm_eq
    {rates rates' : List (String × List (String × Rat))}
    (h : rates.Perm rates') :
    tsSortedDates rates = tsSortedDates rates' := by
  apply List.eq_of_perm_of_sorted (r := (· ≤ · : String → String → Prop))
  · exact ((List.perm_insertionSort _ _).trans (h.map Prod.fst)).trans
      (List.perm_insertionSort _ _).symm
  · exact List.sorted_insertionSort _ _
  · exact List.sorted_insertionSort _ _

/-- **C8**: the time-series Markdown table is the header followed by one
row per date key, rows in lexicographically ascending date order
regardless of the input mapping's order (sortedness, permutation with the
key list, and invariance under permutation of the input), one cell per
requested symbol in the requested order, and the literal token `N/A`
for every date/symbol pair whose rate is missing. -/
theorem formatTimeSeriesAsMarkdown_spec
    (rates rates' : List (String × List (String × Rat)))
    (base : String) (symbols : List String) :
    formatTimeSeriesAsMarkdown rates base symbols =
      tsHeader base symbols ++
        String.join ((tsSortedDates rates).map (tsRow rates symbols)) ∧
    (∀ date, tsRow rates symbols date =
      "| " ++ date ++ " | " ++
        String.intercalate " | "
          (symbols.map (tsCell ((jsGet date rates).getD []))) ++ " |\n") ∧
    List.Sorted (· ≤ ·) (tsSortedDates rates) ∧
    (tsSortedDates rates).Perm (rates.map Prod.fst) ∧
    (∀ date symbol, jsGet symbol ((jsGet date rates).getD []) = none →
      tsCell ((jsGet date rates).getD []) symbol = "N/A") ∧
    (rates.Perm rates' → (rates.map Prod.fst).Nodup →
      formatTimeSeriesAsMarkdown rates base symbols =
        formatTimeSeriesAsMarkdown rates' base symbols) := by
  refine ⟨rfl, fun date => rfl, List.sorted_insertionSort _ _,
    List.perm_insertionSort _ _, ?_, ?_⟩
  · intro date symbol h
    simp [tsCell, h]
  · intro hperm hnd
    have hdates := tsSortedDates_perm_eq hperm
    have hget : ∀ date, jsGet date rates = jsGet date rates' :=
      fun date => jsGet_perm date hperm hnd
    have hrow : tsRow rates symbols = tsRow rates' symbols := by
      funext date
      unfold tsRow
      rw [hget date]
    unfold formatTimeSeriesAsMarkdown
    rw [hdates, hrow]

/-- The spec's time-series example with dates given in descending order. -/
def tsExampleDesc : List (String × List (String × Rat)) :=
  [("2024-01-02", [("USD", 11 / 10)]), ("2024-01-01", [("USD", 109 / 100)])]

/-- The same series with dates given in ascending order. -/
def tsExampleAsc : List (String × List (String × Rat)) :=
  [("2024-01-01", [("USD", 109 / 100)]), ("2024-01-02", [("USD", 11 / 10)])]

/-- Witness for `formatTimeSeriesAsMarkdown_spec`: on the spec's example
series the rendering is invariant under reordering the input dates, and a
missing symbol renders as `N/A`. -/
theorem formatTimeSeriesAsMarkdown_spec_witness :
    formatTimeSeriesAsMarkdown tsExampleDesc "EUR" ["USD"] =
      formatTimeSeriesAsMarkdown tsExampleAsc "EUR" ["USD"] ∧
    tsCell ((jsGet "2024-01-01" tsExampleDesc).getD []) "GBP" = "N/A" :=
  ⟨(formatTimeSeriesAsMarkdown_spec tsExampleDesc tsExampleAsc "EUR"
      ["USD"]).2.2.2.2.2
    (List.Perm.swap ("2024-01-01", [("USD", 109 / 100)])
      ("2024-01-02", [("USD", 11 / 10)]) [])
    (by decide),
   (formatTimeSeriesAsMarkdown_spec tsExampleDesc tsExampleAsc "EUR"
      ["USD"]).2.2.2.2.1 "2024-01-01" "GBP" rfl⟩

/-! ### JSON values and `JSON.stringify(data, null, 2)`
(src/services/formatter.ts, `formatAsJSON`)

A JS value in serialization position: JSON data proper, plus `undefined`
(dropped from objects, `null` in arrays) and `NaN` (serialized `null`),
which the convert-currency handler can actually produce.  A finite JS
number is carried as its canonical decimal token: the engine prints each
double as one shortest round-trip decimal string, and that token is what
`JSON.stringify` emits. -/
inductive JVal where
  | null
  | undef
  | nan
  | bool (b : Bool)
  | num (token : String)
  | str (s : String)
  | arr (elems : List JVal)
  | obj (fields : List (String × JVal))

/-- Lower-case hexadecimal digit, as `JSON.stringify` emits in `\u00XX`
escapes. -/
def hexDigitChar (n : Nat) : Char :=
  if n < 10 then Char.ofNat (48 + n) else Char.ofNat (87 + n)

/-- The escape `JSON.stringify` applies to one character of a string:
`"` and backslash are backslash-escaped, the control characters with
short escapes use them, other control characters become `\u00XX`, and
everything else is emitted verbatim. -/
def escChar (c : Char) : List Char :=
  if c = '"' then ['\\', '"']
  else if c = '\\' then ['\\', '\\']
  else if c = '\x08' then ['\\', 'b']
  else if c = '\x09' then ['\\', 't']
  else if c = '\x0a' then ['\\', 'n']
  else if c = '\x0c' then ['\\', 'f']
  else if c = '\x0d' then ['\\', 'r']
  else if c.toNat < 32 then
    ['\\', 'u', '0', '0', hexDigitChar (c.toNat / 16), hexDigitChar (c.toNat % 16)]
  else [c]

/-- `QuoteJSONString`: a double-quoted, escaped JSON string literal. -/
def quoteJString (s : String) : String :=
  String.mk ('"' :: (List.flatten (s.data.map escChar) ++ ['"']))

/-- Join of already-rendered members or elements, each line prefixed by
the current indentation, separated by `,` and a newline, as
`JSON.stringify` lays out with a 2-space gap. -/
def renderJoin (ind : String) : List String → String
  | [] => ""
  | [p] => ind ++ p
  | p :: q :: ps => ind ++ p ++ ",\n" ++ renderJoin ind (q :: ps)

mutual
/-- `JSON.stringify(v, null, 2)` at indentation `ind`: the serialization
of one value. -/
def renderVal (ind : String) : JVal → String
  | .null => "null"
  | .undef => "null"
  | .nan => "null"
  | .bool true => "true"
  | .bool false => "false"
  | .num token => token
  | .str s => quoteJString s
  | .arr [] => "[]"
  | .arr (x :: xs) =>
      "[\n" ++ renderElems (ind ++ "  ") (x :: xs) ++ "\n" ++ ind ++ "]"
  | .obj fields =>
      match renderMembers (ind ++ "  ") fields with
      | [] => "\x7b\x7d"
      | p :: ps =>
          "\x7b\n" ++ renderJoin (ind ++ "  ") (p :: ps) ++ "\n" ++ ind ++ "\x7d"

/-- The serialized elements of a non-empty array, one per line. -/
def renderElems (ind : String) : List JVal → String
  | [] => ""
  | [x] => ind ++ renderVal ind x
  | x :: y :: xs => ind ++ renderVal ind x ++ ",\n" ++ renderElems ind (y :: xs)

/-- The serialized members of an object, `undefined`-valued properties
dropped, as `JSON.stringify` does. -/
def renderMembers (ind : String) : List (String × JVal) → List String
  | [] => []
  | (k, v) :: rest =>
      match v with
      | .undef => renderMembers ind rest
      | _ => (quoteJString k ++ ": " ++ renderVal ind v) :: renderMembers ind rest
end

/-- `formatAsJSON` from src/services/formatter.ts (lines 14–16):
`JSON.stringify(data, null, 2)`. -/
def formatAsJSON (data : JVal) : String :=
  renderVal "" data

/-- `formatResponse` from src/services/formatter.ts (lines 175–190):
render per format (the optional markdown renderer, falling back to JSON
rendering), then truncate. -/
def formatResponse (data : JVal) (format : ResponseFormat)
    (formatter : Option (JVal → String)) : String :=
  let content : String :=
    match format with
    | .json => formatAsJSON data
    | .markdown =>
      match formatter with
      | some f => f data
      | none => formatAsJSON data
  (truncateIfNeeded content format).1

/-! ### A JSON parser (the spec side of the round-trip property)

The spec's testable property says parsing the output of `format(P, JSON)`
reproduces `P`.  The parser below implements the standard JSON grammar
(RFC 8259) over character lists, keeping numeric tokens verbatim and
object member order as read. -/

/-- JSON insignificant whitespace (space, tab, line feed, carriage
return, by code point). -/
def isJsonWs (c : Char) : Bool :=
  c.toNat = 32 || c.toNat = 9 || c.toNat = 10 || c.toNat = 13

/-- Drop leading JSON whitespace. -/
def skipWs : List Char → List Char
  | [] => []
  | c :: cs => if isJsonWs c then skipWs cs else c :: cs

/-- ASCII decimal digit. -/
def isDigitChar (c : Char) : Bool :=
  48 ≤ c.toNat && c.toNat ≤ 57

/-- A character that can occur in a JSON number token: a digit, `-`,
`+`, `.`, `e` or `E`, by code point. -/
def isNumChar (c : Char) : Bool :=
  isDigitChar c || c.toNat = 45 || c.toNat = 43 || c.toNat = 46 ||
    c.toNat = 101 || c.toNat = 69

/-- Maximal munch of number-token characters. -/
def takeNumChars : List Char → List Char × List Char
  | [] => ([], [])
  | c :: cs =>
      if isNumChar c then
        let p := takeNumChars cs
        (c :: p.1, p.2)
      else ([], c :: cs)

/-- Drop leading decimal digits. -/
def scanDigits : List Char → List Char
  | [] => []
  | c :: cs => if isDigitChar c then scanDigits cs else c :: cs

/-- Require at least one digit, then drop the digit run. -/
def scanDigits1 : List Char → Option (List Char)
  | [] => none
  | c :: cs => if isDigitChar c then some (scanDigits cs) else none

/-- JSON `int` part: `0` or a nonzero digit followed by digits. -/
def scanInt : List Char → Option (List Char)
  | [] => none
  | c :: cs =>
      if c = '0' then some cs
      else if isDigitChar c then some (scanDigits cs)
      else none

/-- Optional JSON `frac` part: `.` followed by one or more digits. -/
def scanFrac : List Char → Option (List Char)
  | '.' :: cs => scanDigits1 cs
  | cs => some cs

/-- Optional JSON `exp` part. -/
def scanExp : List Char → Option (List Char)
  | [] => some []
  | c :: cs =>
      if c = 'e' || c = 'E' then
        match cs with
        | s :: cs' => if s = '+' || s = '-' then scanDigits1 cs' else scanDigits1 cs
        | [] => none
      else some (c :: cs)

/-- Whether a character list is exactly one well-formed JSON number
token: optional minus, int part, optional frac, optional exp. -/
def isJsonNumberToken (cs : List Char) : Bool :=
  let body := match cs with
    | [] => []
    | c :: t => if c = '-' then t else c :: t
  match scanInt body with
  | none => false
  | some r1 =>
      match scanFrac r1 with
      | none => false
      | some r2 =>
          match scanExp r2 with
          | none => false
          | some r3 => r3.isEmpty

/-- Parse a number token by maximal munch, validating its shape; the
token is kept verbatim. -/
def parseNum (cs : List Char) : Option (JVal × List Char) :=
  let p := takeNumChars cs
  if p.1.isEmpty then none
  else if isJsonNumberToken p.1 then some (.num (String.mk p.1), p.2)
  else none

/-- Hexadecimal digit value. -/
def hexVal (c : Char) : Option Nat :=
  if 48 ≤ c.toNat && c.toNat ≤ 57 then some (c.toNat - 48)
  else if 97 ≤ c.toNat && c.toNat ≤ 102 then some (c.toNat - 87)
  else if 65 ≤ c.toNat && c.toNat ≤ 70 then some (c.toNat - 55)
  else none

/-- Parse the body of a JSON string literal after the opening quote,
returning the decoded characters and the input after the closing
quote. -/
def escCode (e : Char) : Option Char :=
  if e = '"' then some '"'
  else if e = '\\' then some '\\'
  else if e = '/' then some '/'
  else if e = 'b' then some '\x08'
  else if e = 'f' then some '\x0c'
  else if e = 'n' then some '\x0a'
  else if e = 'r' then some '\x0d'
  else if e = 't' then some '\x09'
  else none

def parseStringBody : List Char → Option (List Char × List Char)
  | [] => none
  | c :: rest =>
      if c = '"' then some ([], rest)
      else if c = '\\' then
        match rest with
        | [] => none
        | e :: rest' =>
            if e = 'u' then
              match rest' with
              | a :: b :: cc :: d :: rest2 =>
                  match hexVal a, hexVal b, hexVal cc, hexVal d with
                  | some w, some x, some y, some z =>
                      Option.map
                        (fun p =>
                          (Char.ofNat (((w * 16 + x) * 16 + y) * 16 + z) :: p.1,
                           p.2))
                        (parseStringBody rest2)
                  | _, _, _, _ => none
              | _ => none
            else
              match escCode e with
              | some decoded =>
                  Option.map (fun p => (decoded :: p.1, p.2))
                    (parseStringBody rest')
              | none => none
      else Option.map (fun p => (c :: p.1, p.2)) (parseStringBody rest)
termination_by cs => cs.length
decreasing_by all_goals simp_arith [List.length]

mutual
/-- Parse one JSON value (leading whitespace already consumed). -/
def parseVal : Nat → List Char → Option (JVal × List Char)
  | 0, _ => none
  | _ + 1, [] => none
  | fuel + 1, c :: cs =>
      if c = 'n' then
        match cs with
        | 'u' :: 'l' :: 'l' :: rest => some (.null, rest)
        | _ => none
      else if c = 't' then
        match cs with
        | 'r' :: 'u' :: 'e' :: rest => some (.bool true, rest)
        | _ => none
      else if c = 'f' then
        match cs with
        | 'a' :: 'l' :: 's' :: 'e' :: rest => some (.bool false, rest)
        | _ => none
      else if c = '"' then
        match parseStringBody cs with
        | some (body, rest) => some (.str (String.mk body), rest)
        | none => none
      else if c = '[' then
        match skipWs cs with
        | ']' :: rest => some (.arr [], rest)
        | cs' => parseElems fuel cs' []
      else if c = '\x7b' then
        match skipWs cs with
        | '\x7d' :: rest => some (.obj [], rest)
        | cs' => parseMembers fuel cs' []
      else parseNum (c :: cs)

/-- Parse the remaining elements of a non-empty array. -/
def parseElems : Nat → List Char → List JVal → Option (JVal × List Char)
  | 0, _, _ => none
  | fuel + 1, cs, acc =>
      match parseVal fuel cs with
      | none => none
      | some (v, rest) =>
          match skipWs rest with
          | ',' :: rest' => parseElems fuel (skipWs rest') (acc ++ [v])
          | ']' :: rest' => some (.arr (acc ++ [v]), rest')
          | _ => none

/-- Parse the remaining members of a non-empty object. -/
def parseMembers : Nat → List Char → List (String × JVal) →
    Option (JVal × List Char)
  | 0, _, _ => none
  | fuel + 1, cs, acc =>
      match cs with
      | '"' :: cs1 =>
          match parseStringBody cs1 with
          | some (key, rest) =>
              match skipWs rest with
              | ':' :: rest' =>
                  match parseVal fuel (skipWs rest') with
                  | some (v, rest2) =>
                      match skipWs rest2 with
                      | ',' :: r =>
                          parseMembers fuel (skipWs r) (acc ++ [(String.mk key, v)])
                      | '\x7d' :: r =>
                          some (.obj (acc ++ [(String.mk key, v)]), r)
                      | _ => none
                  | none => none
              | _ => none
          | none => none
      | _ => none
end

/-- `JSON.parse`-style entry point: parse one value surrounded by
whitespace; fuel is the input length plus one. -/
def jsonParse (s : String) : Option JVal :=
  match parseVal (s.length + 1) (skipWs s.data) with
  | some (v, rest) => if (skipWs rest).isEmpty then some v else none
  | none => none

/-! ### Well-formed payloads and the parsing fuel measure -/

mutual
/-- A payload is JSON-representable: no `undefined`, no `NaN`, and every
numeric token is a well-formed JSON number. -/
def jwf : JVal → Bool
  | .null => true
  | .undef => false
  | .nan => false
  | .bool _ => true
  | .num token => token.data.all isNumChar && isJsonNumberToken token.data
  | .str _ => true
  | .arr xs => jwfList xs
  | .obj fs => jwfMembers fs

def jwfList : List JVal → Bool
  | [] => true
  | x :: xs => jwf x && jwfList xs

def jwfMembers : List (String × JVal) → Bool
  | [] => true
  | kv :: rest => jwf kv.2 && jwfMembers rest
end

mutual
/-- An upper bound on the parser fuel a value needs. -/
def jfuel : JVal → Nat
  | .arr xs => 1 + jfuelElems xs
  | .obj fs => 1 + jfuelMembers fs
  | _ => 1

def jfuelElems : List JVal → Nat
  | [] => 1
  | x :: xs => 1 + max (jfuel x) (jfuelElems xs)

def jfuelMembers : List (String × JVal) → Nat
  | [] => 1
  | kv :: rest => 1 + max (jfuel kv.2) (jfuelMembers rest)
end

/-- Every character of the list is JSON whitespace. -/
def allWsChars (l : List Char) : Prop := ∀ c ∈ l, isJsonWs c = true

/-- The list is empty or starts with a character that cannot extend a
number token. -/
def noNumHead : List Char → Bool
  | [] => true
  | c :: _ => !(isNumChar c)

/-- The list starts with a non-whitespace character. -/
def headNotWs : List Char → Bool
  | [] => false
  | c :: _ => !(isJsonWs c)

/-! ### Character-class and whitespace lemmas -/

theorem ws_not_num {c : Char} (h : isJsonWs c = true) : isNumChar c = false := by
  simp only [isJsonWs, Bool.or_eq_true, decide_eq_true_eq] at h
  simp only [isNumChar, isDigitChar, Bool.or_eq_false_iff, Bool.and_eq_false_iff,
    decide_eq_false_iff_not]
  omega

theorem digit_not_ws {c : Char} (h : isDigitChar c = true) :
    isJsonWs c = false := by
  simp only [isDigitChar, Bool.and_eq_true, decide_eq_true_eq] at h
  simp only [isJsonWs, Bool.or_eq_false_iff, decide_eq_false_iff_not]
  omega

theorem skipWs_cons_not {c : Char} (t : List Char) (h : isJsonWs c = false) :
    skipWs (c :: t) = c :: t := by
  simp [skipWs, h]

theorem skipWs_ws_append {l : List Char} (t : List Char) (h : allWsChars l) :
    skipWs (l ++ t) = skipWs t := by
  induction l with
  | nil => rfl
  | cons c cs ih =>
      have hc := h c (List.mem_cons_self c cs)
      simp only [List.cons_append, skipWs, hc, if_true]
      exact ih fun d hd => h d (List.mem_cons_of_mem c hd)

theorem skipWs_head (l t : List Char) (hl : allWsChars l)
    (ht : headNotWs t = true) : skipWs (l ++ t) = t := by
  rw [skipWs_ws_append t hl]
  cases t with
  | nil => rfl
  | cons c cs =>
      simp only [headNotWs, Bool.not_eq_true'] at ht
      exact skipWs_cons_not cs ht

theorem allWsChars_two_spaces (ind : String) (h : allWsChars ind.data) :
    allWsChars (ind ++ "  ").data := by
  rw [String.data_append]
  intro c hc
  rcases List.mem_append.mp hc with h1 | h1
  · exact h c h1
  · have h2 : c ∈ [' ', ' '] := h1
    have h3 : c = ' ' := by
      simpa using h2
    subst h3
    rfl

/-! ### Number-token lemmas -/

theorem takeNumChars_exact (l t : List Char) (hl : l.all isNumChar = true)
    (ht : noNumHead t = true) : takeNumChars (l ++ t) = (l, t) := by
  induction l with
  | nil =>
      cases t with
      | nil => rfl
      | cons c cs =>
          simp only [noNumHead, Bool.not_eq_true'] at ht
          simp [takeNumChars, ht]
  | cons c cs ih =>
      simp only [List.all_cons, Bool.and_eq_true] at hl
      simp only [List.cons_append, takeNumChars, hl.1, if_true]
      rw [List.append_eq, ih hl.2]

theorem isJsonNumberToken_ne_nil : isJsonNumberToken [] = false := rfl

theorem numToken_head {c : Char} {t : List Char}
    (h : isJsonNumberToken (c :: t) = true) :
    c.toNat = 45 ∨ isDigitChar c = true := by
  by_cases hc : c = '-'
  · subst hc; exact Or.inl rfl
  · right
    unfold isJsonNumberToken at h
    simp only [hc, if_false] at h
    by_cases hd : isDigitChar c = true
    · exact hd
    · exfalso
      have h0 : ¬c = '0' := by
        rintro rfl; exact hd rfl
      simp only [scanInt, h0, if_false, hd, Bool.false_eq_true, if_false] at h

theorem numHead_not_ws {c : Char} (h : c.toNat = 45 ∨ isDigitChar c = true) :
    isJsonWs c = false := by
  rcases h with h | h
  · simp only [isJsonWs, Bool.or_eq_false_iff, decide_eq_false_iff_not, h]
    omega
  · exact digit_not_ws h

/-! ### String-literal round trip -/

theorem hexVal_zero : hexVal '0' = some 0 := rfl

theorem hexVal_hexDigitChar : ∀ n, n < 16 → hexVal (hexDigitChar n) = some n := by
  decide

theorem parseStringBody_quote (rest : List Char) :
    parseStringBody ('"' :: rest) = some ([], rest) := by
  rw [parseStringBody.eq_def]
  simp

theorem parseStringBody_esc (e decoded : Char) (he : escCode e = some decoded)
    (hne : e ≠ 'u') (rest : List Char) :
    parseStringBody ('\\' :: e :: rest) =
      Option.map (fun p => (decoded :: p.1, p.2)) (parseStringBody rest) := by
  rw [parseStringBody.eq_def]
  simp [hne, he]

theorem parseStringBody_unicode {a b cc d : Char} {w x y z : Nat}
    (ha : hexVal a = some w) (hb : hexVal b = some x)
    (hc : hexVal cc = some y) (hd : hexVal d = some z) (rest : List Char) :
    parseStringBody ('\\' :: 'u' :: a :: b :: cc :: d :: rest) =
      Option.map
        (fun p => (Char.ofNat (((w * 16 + x) * 16 + y) * 16 + z) :: p.1, p.2))
        (parseStringBody rest) := by
  rw [parseStringBody.eq_def]
  simp [ha, hb, hc, hd]

theorem parseStringBody_other {c : Char} (h1 : c ≠ '"') (h2 : c ≠ '\\')
    (rest : List Char) :
    parseStringBody (c :: rest) =
      Option.map (fun p => (c :: p.1, p.2)) (parseStringBody rest) := by
  rw [parseStringBody.eq_def]
  simp [h1, h2]

theorem parseStringBody_escape (cs rest : List Char) :
    parseStringBody (List.flatten (cs.map escChar) ++ '"' :: rest) =
      some (cs, rest) := by
  induction cs with
  | nil =>
      simp only [List.map_nil, List.flatten_nil, List.nil_append]
      exact parseStringBody_quote rest
  | cons c cs ih =>
      have step : List.flatten ((c :: cs).map escChar) ++ '"' :: rest =
          escChar c ++ (List.flatten (cs.map escChar) ++ '"' :: rest) := by
        simp [List.append_assoc]
      rw [step]
      by_cases h1 : c = '"'
      · subst h1
        rw [show escChar '"' = ['\\', '"'] from rfl]
        rw [List.cons_append, List.cons_append, List.nil_append,
          parseStringBody_esc '"' '"' rfl (by decide) _, ih]
        rfl
      by_cases h2 : c = '\\'
      · subst h2
        rw [show escChar '\\' = ['\\', '\\'] from rfl]
        rw [List.cons_append, List.cons_append, List.nil_append,
          parseStringBody_esc '\\' '\\' rfl (by decide) _, ih]
        rfl
      by_cases h3 : c = '\x08'
      · subst h3
        rw [show escChar '\x08' = ['\\', 'b'] from rfl]
        rw [List.cons_append, List.cons_append, List.nil_append,
          parseStringBody_esc 'b' '\x08' rfl (by decide) _, ih]
        rfl
      by_cases h4 : c = '\x09'
      · subst h4
        rw [show escChar '\x09' = ['\\', 't'] from rfl]
        rw [List.cons_append, List.cons_append, List.nil_append,
          parseStringBody_esc 't' '\x09' rfl (by decide) _, ih]
        rfl
      by_cases h5 : c = '\x0a'
      · subst h5
        rw [show escChar '\x0a' = ['\\', 'n'] from rfl]
        rw [List.cons_append, List.cons_append, List.nil_append,
          parseStringBody_esc 'n' '\x0a' rfl (by decide) _, ih]
        rfl
      by_cases h6 : c = '\x0c'
      · subst h6
        rw [show escChar '\x0c' = ['\\', 'f'] from rfl]
        rw [List.cons_append, List.cons_append, List.nil_append,
          parseStringBody_esc 'f' '\x0c' rfl (by decide) _, ih]
        rfl
      by_cases h7 : c = '\x0d'
      · subst h7
        rw [show escChar '\x0d' = ['\\', 'r'] from rfl]
        rw [List.cons_append, List.cons_append, List.nil_append,
          parseStringBody_esc 'r' '\x0d' rfl (by decide) _, ih]
        rfl
      by_cases h8 : c.toNat < 32
      · have e1 : hexVal (hexDigitChar (c.toNat / 16)) = some (c.toNat / 16) :=
          hexVal_hexDigitChar _ (by omega)
        have e2 : hexVal (hexDigitChar (c.toNat % 16)) = some (c.toNat % 16) :=
          hexVal_hexDigitChar _ (by omega)
        have estep : escChar c =
            ['\\', 'u', '0', '0', hexDigitChar (c.toNat / 16),
              hexDigitChar (c.toNat % 16)] := by
          rw [escChar]
          simp [h1, h2, h3, h4, h5, h6, h7, h8]
        rw [estep]
        simp only [List.cons_append, List.nil_append]
        rw [parseStringBody_unicode hexVal_zero hexVal_zero e1 e2 _, ih]
        have e3 : ((0 * 16 + 0) * 16 + c.toNat / 16) * 16 + c.toNat % 16 =
            c.toNat := by omega
        rw [e3, Char.ofNat_toNat]
        rfl
      · have estep : escChar c = [c] := by
          rw [escChar]
          simp [h1, h2, h3, h4, h5, h6, h7, h8]
        rw [estep]
        simp only [List.cons_append, List.nil_append]
        rw [parseStringBody_other h1 h2 _, ih]
        rfl

/-! ### Render-shape helpers for the round-trip proof -/

/-- The serialized elements of an array without the leading indentation
of the first element. -/
def renderElemsTail (ind : String) : List JVal → String
  | [] => ""
  | [x] => renderVal ind x
  | x :: y :: xs => renderVal ind x ++ ",\n" ++ ind ++ renderElemsTail ind (y :: xs)

/-- The serialized members of an object without the leading indentation
of the first member. -/
def renderMembersTail (ind : String) : List (String × JVal) → String
  | [] => ""
  | [kv] => quoteJString kv.1 ++ ": " ++ renderVal ind kv.2
  | kv :: kv2 :: rest =>
      quoteJString kv.1 ++ ": " ++ renderVal ind kv.2 ++ ",\n" ++ ind ++
        renderMembersTail ind (kv2 :: rest)

theorem renderElems_eq_tail (ind : String) (l : List JVal) (h : l ≠ []) :
    renderElems ind l = ind ++ renderElemsTail ind l := by
  match l with
  | [x] => rfl
  | x :: y :: xs =>
      have ih := renderElems_eq_tail ind (y :: xs) (by simp)
      rw [renderElems, renderElemsTail, ih]
      simp [String.append_assoc]

theorem renderMembers_no_undef (ind : String)
    (fs : List (String × JVal)) (h : jwfMembers fs = true) :
    renderMembers ind fs =
      fs.map (fun kv => quoteJString kv.1 ++ ": " ++ renderVal ind kv.2) := by
  induction fs with
  | nil => rfl
  | cons kv rest ih =>
      simp only [jwfMembers, Bool.and_eq_true] at h
      have hv : jwf kv.2 = true := h.1
      obtain ⟨k, v⟩ := kv
      cases v with
      | undef => exact absurd hv (by simp [jwf])
      | null => simp only [renderMembers, ih h.2]; rfl
      | nan => simp only [renderMembers, ih h.2]; rfl
      | bool b => simp only [renderMembers, ih h.2]; rfl
      | num t => simp only [renderMembers, ih h.2]; rfl
      | str s => simp only [renderMembers, ih h.2]; rfl
      | arr xs => simp only [renderMembers, ih h.2]; rfl
      | obj gs => simp only [renderMembers, ih h.2]; rfl

theorem renderJoin_eq_tail (ind : String) (fs : List (String × JVal))
    (hne : fs ≠ []) :
    renderJoin ind
        (fs.map (fun kv => quoteJString kv.1 ++ ": " ++ renderVal ind kv.2)) =
      ind ++ renderMembersTail ind fs := by
  match fs with
  | [kv] => rfl
  | kv :: kv2 :: rest =>
      have ih := renderJoin_eq_tail ind (kv2 :: rest) (by simp)
      simp only [List.map_cons]
      rw [renderJoin, renderMembersTail]
      rw [show (quoteJString kv2.1 ++ ": " ++ renderVal ind kv2.2) ::
            List.map (fun kv => quoteJString kv.1 ++ ": " ++ renderVal ind kv.2) rest =
          List.map (fun kv => quoteJString kv.1 ++ ": " ++ renderVal ind kv.2)
            (kv2 :: rest) from rfl]
      rw [ih]
      simp [String.append_assoc]

/-- The rendering of an object with at least one member under
well-formedness. -/
theorem renderVal_obj_cons (ind : String) (fs : List (String × JVal))
    (hne : fs ≠ []) (hwf : jwfMembers fs = true) :
    renderVal ind (.obj fs) =
      "\x7b\n" ++ (ind ++ "  ") ++ renderMembersTail (ind ++ "  ") fs ++
        "\n" ++ ind ++ "\x7d" := by
  rw [renderVal, renderMembers_no_undef _ _ hwf]
  match fs with
  | kv :: rest =>
      simp only [List.map_cons]
      rw [show (quoteJString kv.1 ++ ": " ++ renderVal (ind ++ "  ") kv.2) ::
            List.map
              (fun kv => quoteJString kv.1 ++ ": " ++ renderVal (ind ++ "  ") kv.2)
              rest =
          List.map
            (fun kv => quoteJString kv.1 ++ ": " ++ renderVal (ind ++ "  ") kv.2)
            (kv :: rest) from rfl]
      rw [renderJoin_eq_tail _ _ (by simp)]
      simp [String.append_assoc]

/-! ### Head-shape facts about renderings -/

/-- The first character of any rendering: present, not whitespace, and not
a structural delimiter (`]`, `\x7d`, `,`). -/
def goodHead : List Char → Bool
  | [] => false
  | c :: _ =>
      !(isJsonWs c) && !(c.toNat = 93) && !(c.toNat = 125) && !(c.toNat = 44)

theorem goodHead_append {l : List Char} (m : List Char)
    (h : goodHead l = true) : goodHead (l ++ m) = true := by
  cases l with
  | nil => cases h
  | cons c t => exact h

theorem goodHead_not_ws {l : List Char} (h : goodHead l = true) :
    headNotWs l = true := by
  cases l with
  | nil => cases h
  | cons c t =>
      simp only [goodHead, Bool.and_eq_true] at h
      simp only [headNotWs]
      exact h.1.1.1

theorem numHead_goodHead {c : Char} (h : c.toNat = 45 ∨ isDigitChar c = true)
    (t : List Char) : goodHead (c :: t) = true := by
  have hn : c.toNat = 45 ∨ (48 ≤ c.toNat ∧ c.toNat ≤ 57) := by
    rcases h with h | h
    · exact Or.inl h
    · right
      simp only [isDigitChar, Bool.and_eq_true, decide_eq_true_eq] at h
      exact h
  simp only [goodHead, Bool.and_eq_true, Bool.not_eq_true', isJsonWs,
    Bool.or_eq_false_iff, decide_eq_false_iff_not]
  omega

theorem renderVal_goodHead (ind : String) (v : JVal) (h : jwf v = true) :
    goodHead (renderVal ind v).data = true := by
  cases v with
  | null => rfl
  | undef => exact absurd h (by simp [jwf])
  | nan => exact absurd h (by simp [jwf])
  | bool b => cases b <;> rfl
  | num token =>
      simp only [jwf, Bool.and_eq_true] at h
      rw [show renderVal ind (.num token) = token from rfl]
      cases htd : token.data with
      | nil => rw [htd] at h; exact absurd h.2 (by decide)
      | cons c t =>
          rw [htd] at h
          exact numHead_goodHead (numToken_head h.2) t
  | str s => rfl
  | arr xs =>
      cases xs with
      | nil => rfl
      | cons x xs =>
          rw [renderVal]
          simp only [String.data_append]
          rfl
  | obj fs =>
      rw [renderVal]
      cases hm : renderMembers (ind ++ "  ") fs with
      | nil => rfl
      | cons p ps =>
          simp only [String.data_append]
          rfl

/-! ### Small helpers for the round-trip induction -/

theorem string_mk_data (s : String) : String.mk s.data = s := rfl

theorem jwfList_cons {x : JVal} {xs : List JVal}
    (h : jwfList (x :: xs) = true) : jwf x = true ∧ jwfList xs = true := by
  simpa [jwfList, Bool.and_eq_true] using h

theorem jwfMembers_cons' {k : String} {v : JVal} {rest : List (String × JVal)}
    (h : jwfMembers ((k, v) :: rest) = true) :
    jwf v = true ∧ jwfMembers rest = true := by
  simpa [jwfMembers, Bool.and_eq_true] using h

theorem jfuel_pos (v : JVal) : 1 ≤ jfuel v := by
  cases v <;> simp_arith [jfuel]

theorem jfuelElems_pos (l : List JVal) : 1 ≤ jfuelElems l := by
  cases l <;> simp_arith [jfuelElems]

theorem jfuelMembers_pos (fs : List (String × JVal)) : 1 ≤ jfuelMembers fs := by
  cases fs <;> simp_arith [jfuelMembers]

theorem headNotWs_append {l : List Char} (m : List Char)
    (h : headNotWs l = true) : headNotWs (l ++ m) = true := by
  cases l with
  | nil => cases h
  | cons c t => exact h

theorem skipWs_id {X : List Char} (h : headNotWs X = true) : skipWs X = X := by
  cases X with
  | nil => rfl
  | cons c t =>
      simp only [headNotWs, Bool.not_eq_true'] at h
      exact skipWs_cons_not t h

theorem skipWs_nl (A X : List Char) (hA : allWsChars A)
    (hX : headNotWs X = true) : skipWs ('\n' :: (A ++ X)) = X := by
  have h1 : skipWs (A ++ X) = X := by
    rw [skipWs_ws_append X hA]
    exact skipWs_id hX
  simpa [skipWs] using h1

theorem renderElemsTail_goodHead (ind : String) (l : List JVal)
    (hne : l ≠ []) (hwf : jwfList l = true) :
    goodHead (renderElemsTail ind l).data = true := by
  match l with
  | [x] => exact renderVal_goodHead ind x (jwfList_cons hwf).1
  | x :: y :: xs =>
      rw [renderElemsTail]
      simp only [String.data_append]
      exact goodHead_append _ (goodHead_append _ (goodHead_append _
        (renderVal_goodHead ind x (jwfList_cons hwf).1)))

theorem quoteJString_goodHead (k : String) :
    goodHead (quoteJString k).data = true := rfl

theorem renderMembersTail_goodHead (ind : String)
    (fs : List (String × JVal)) (hne : fs ≠ []) :
    goodHead (renderMembersTail ind fs).data = true := by
  match fs with
  | [kv] =>
      rw [renderMembersTail]
      simp only [String.data_append]
      exact goodHead_append _ (goodHead_append _ (quoteJString_goodHead kv.1))
  | kv :: kv2 :: rest =>
      rw [renderMembersTail]
      simp only [String.data_append]
      exact goodHead_append _ (goodHead_append _ (goodHead_append _
        (goodHead_append _ (goodHead_append _ (quoteJString_goodHead kv.1)))))

theorem goodHead_ne_rbracket {c : Char} {t : List Char}
    (h : goodHead (c :: t) = true) : c ≠ ']' := by
  simp only [goodHead, Bool.and_eq_true, Bool.not_eq_true',
    decide_eq_false_iff_not] at h
  rintro rfl
  exact h.1.1.2 rfl

theorem goodHead_ne_rbrace {c : Char} {t : List Char}
    (h : goodHead (c :: t) = true) : c ≠ '\x7d' := by
  simp only [goodHead, Bool.and_eq_true, Bool.not_eq_true',
    decide_eq_false_iff_not] at h
  rintro rfl
  exact h.1.2 rfl

theorem goodHead_exists {l : List Char} (h : goodHead l = true) :
    ∃ c t, l = c :: t := by
  cases l with
  | nil => cases h
  | cons c t => exact ⟨c, t, rfl⟩

theorem numHead_ne_delims {c : Char}
    (h : c.toNat = 45 ∨ isDigitChar c = true) :
    c ≠ 'n' ∧ c ≠ 't' ∧ c ≠ 'f' ∧ c ≠ '"' ∧ c ≠ '[' ∧ c ≠ '\x7b' := by
  have hn : c.toNat = 45 ∨ (48 ≤ c.toNat ∧ c.toNat ≤ 57) := by
    rcases h with h | h
    · exact Or.inl h
    · right
      simp only [isDigitChar, Bool.and_eq_true, decide_eq_true_eq] at h
      exact h
  refine ⟨?_, ?_, ?_, ?_, ?_, ?_⟩ <;> (rintro rfl; revert hn; decide)

/-! ### The render/parse round trip -/

theorem allWsChars_single_space : allWsChars [' '] := by
  intro c hc
  have h2 : c = ' ' := by simpa using hc
  subst h2
  rfl

theorem parseVal_lbracket (f : Nat) (cs : List Char) :
    parseVal (f + 1) ('[' :: cs) =
      match skipWs cs with
      | ']' :: rest => some (.arr [], rest)
      | cs' => parseElems f cs' [] := by
  simp only [parseVal]
  rw [if_neg (show ¬('[' = 'n') from by decide),
    if_neg (show ¬('[' = 't') from by decide),
    if_neg (show ¬('[' = 'f') from by decide),
    if_neg (show ¬('[' = '"') from by decide),
    if_pos trivial]

theorem parseVal_lbrace (f : Nat) (cs : List Char) :
    parseVal (f + 1) ('\x7b' :: cs) =
      match skipWs cs with
      | '\x7d' :: rest => some (.obj [], rest)
      | cs' => parseMembers f cs' [] := by
  simp only [parseVal]
  rw [if_neg (show ¬('\x7b' = 'n') from by decide),
    if_neg (show ¬('\x7b' = 't') from by decide),
    if_neg (show ¬('\x7b' = 'f') from by decide),
    if_neg (show ¬('\x7b' = '"') from by decide),
    if_neg (show ¬('\x7b' = '[') from by decide),
    if_pos trivial]

mutual

theorem parse_renderVal (v : JVal) (ind : String) (rest : List Char)
    (fuel : Nat) (hwf : jwf v = true) (hind : allWsChars ind.data)
    (hrest : noNumHead rest = true) (hfuel : jfuel v ≤ fuel) :
    parseVal fuel ((renderVal ind v).data ++ rest) = some (v, rest) := by
  obtain ⟨f, rfl⟩ : ∃ f, fuel = f + 1 := by
    have := jfuel_pos v
    cases fuel with
    | zero => omega
    | succ f => exact ⟨f, rfl⟩
  cases v with
  | null =>
      rw [show renderVal ind .null = "null" from rfl,
        show ("null" : String).data = ['n', 'u', 'l', 'l'] from rfl]
      simp [parseVal]
  | undef => exact absurd hwf (by simp [jwf])
  | nan => exact absurd hwf (by simp [jwf])
  | bool b =>
      cases b with
      | true =>
          rw [show renderVal ind (.bool true) = "true" from rfl,
            show ("true" : String).data = ['t', 'r', 'u', 'e'] from rfl]
          simp [parseVal]
      | false =>
          rw [show renderVal ind (.bool false) = "false" from rfl,
            show ("false" : String).data = ['f', 'a', 'l', 's', 'e'] from rfl]
          simp [parseVal]
  | num token =>
      simp only [jwf, Bool.and_eq_true] at hwf
      rw [show renderVal ind (.num token) = token from rfl]
      cases htd : token.data with
      | nil => rw [htd] at hwf; exact absurd hwf.2 (by decide)
      | cons c t =>
          rw [htd] at hwf
          have hne := numHead_ne_delims (numToken_head hwf.2)
          have htake : takeNumChars (c :: (t ++ rest)) = (c :: t, rest) := by
            rw [← List.cons_append]
            exact takeNumChars_exact _ _ hwf.1 hrest
          rw [List.cons_append]
          simp only [parseVal, hne.1, hne.2.1, hne.2.2.1, hne.2.2.2.1,
            hne.2.2.2.2.1, hne.2.2.2.2.2, if_false, ite_false]
          simp [parseNum, htake, hwf.2]
          rw [← htd, string_mk_data]
  | str s =>
      rw [show renderVal ind (.str s) = quoteJString s from rfl, quoteJString]
      rw [show (String.mk ('"' :: (List.flatten (s.data.map escChar) ++ ['"']))).data =
            '"' :: (List.flatten (s.data.map escChar) ++ ['"']) from rfl]
      rw [List.cons_append, List.append_assoc]
      rw [show (['"'] : List Char) ++ rest = '"' :: rest from rfl]
      simp [parseVal, parseStringBody_escape, string_mk_data]
  | arr xs =>
      cases xs with
      | nil =>
          rw [show renderVal ind (.arr []) = "[]" from rfl,
            show ("[]" : String).data = ['[', ']'] from rfl]
          simp only [List.cons_append, List.nil_append]
          rw [parseVal_lbracket, skipWs_cons_not _ (by decide)]
          rfl
      | cons x xs =>
          have hwfl : jwfList (x :: xs) = true := by simpa [jwf] using hwf
          have hfe : jfuelElems (x :: xs) ≤ f := by
            simp only [jfuel] at hfuel
            omega
          have hind2 : allWsChars (ind ++ "  ").data :=
            allWsChars_two_spaces ind hind
          rw [renderVal, renderElems_eq_tail _ _ (by simp)]
          set indp := ind ++ "  " with hip
          simp only [String.data_append, List.append_assoc]
          try simp only [show ("[\n" : String).data = ['[', '\n'] from rfl]
          try simp only [show ("\n" : String).data = ['\n'] from rfl]
          try simp only [show ("]" : String).data = [']'] from rfl]
          simp only [List.cons_append, List.nil_append]
          rw [parseVal_lbracket]
          have hgh : goodHead ((renderElemsTail indp (x :: xs)).data ++
              ('\n' :: (ind.data ++ (']' :: rest)))) = true :=
            goodHead_append _
              (renderElemsTail_goodHead _ _ (by simp) hwfl)
          rw [skipWs_nl _ _ hind2 (goodHead_not_ws hgh)]
          obtain ⟨c0, t0, hct⟩ := goodHead_exists
            (renderElemsTail_goodHead indp (x :: xs) (by simp) hwfl)
          have hc0 : c0 ≠ ']' := goodHead_ne_rbracket (hct ▸
            renderElemsTail_goodHead indp (x :: xs) (by simp) hwfl)
          split
          · next heq =>
              exfalso
              rw [hct] at heq
              simp only [List.cons_append] at heq
              exact hc0 (List.cons.injEq .. ▸ heq).1
          · next =>
              rw [parse_renderElems (x :: xs) [] indp ind rest f hwfl
                (by simp) hind2 hind hfe]
              simp
  | obj fs =>
      have hwfm : jwfMembers fs = true := by simpa [jwf] using hwf
      cases fs with
      | nil =>
          rw [show renderVal ind (.obj []) = "\x7b\x7d" from rfl,
            show ("\x7b\x7d" : String).data = ['\x7b', '\x7d'] from rfl]
          simp only [List.cons_append, List.nil_append]
          rw [parseVal_lbrace, skipWs_cons_not _ (by decide)]
          rfl
      | cons kv fs' =>
          have hfm : jfuelMembers (kv :: fs') ≤ f := by
            simp only [jfuel] at hfuel
            omega
          have hind2 : allWsChars (ind ++ "  ").data :=
            allWsChars_two_spaces ind hind
          rw [renderVal_obj_cons ind (kv :: fs') (by simp) hwfm]
          set indp := ind ++ "  " with hip
          simp only [String.data_append, List.append_assoc]
          try simp only [show ("\x7b\n" : String).data = ['\x7b', '\n'] from rfl]
          try simp only [show ("\n" : String).data = ['\n'] from rfl]
          try simp only [show ("\x7d" : String).data = ['\x7d'] from rfl]
          simp only [List.cons_append, List.nil_append]
          rw [parseVal_lbrace]
          have hgh : goodHead ((renderMembersTail indp (kv :: fs')).data ++
              ('\n' :: (ind.data ++ ('\x7d' :: rest)))) = true :=
            goodHead_append _
              (renderMembersTail_goodHead _ _ (by simp))
          rw [skipWs_nl _ _ hind2 (goodHead_not_ws hgh)]
          obtain ⟨c0, t0, hct⟩ := goodHead_exists
            (renderMembersTail_goodHead indp (kv :: fs') (by simp))
          have hc0 : c0 ≠ '\x7d' := goodHead_ne_rbrace (hct ▸
            renderMembersTail_goodHead indp (kv :: fs') (by simp))
          split
          · next heq =>
              exfalso
              rw [hct] at heq
              simp only [List.cons_append] at heq
              exact hc0 (List.cons.injEq .. ▸ heq).1
          · next =>
              rw [parse_renderMembers (kv :: fs') [] indp ind rest f
                hwfm (by simp) hind2 hind hfm]
              simp
termination_by fuel
decreasing_by all_goals (simp_wf; omega)

theorem parse_renderElems (l acc : List JVal) (ind' ind : String)
    (rest : List Char) (f : Nat) (hwf : jwfList l = true) (hne : l ≠ [])
    (hind' : allWsChars ind'.data) (hind : allWsChars ind.data)
    (hfuel : jfuelElems l ≤ f) :
    parseElems f
        ((renderElemsTail ind' l).data ++ ('\n' :: (ind.data ++ (']' :: rest))))
        acc =
      some (.arr (acc ++ l), rest) := by
  obtain ⟨g, rfl⟩ : ∃ g, f = g + 1 := by
    have := jfuelElems_pos l
    cases f with
    | zero => omega
    | succ g => exact ⟨g, rfl⟩
  match l with
  | [x] =>
      have hx := (jwfList_cons hwf).1
      have hg : jfuel x ≤ g := by
        simp only [jfuelElems] at hfuel
        omega
      have hpv := parse_renderVal x ind' ('\n' :: (ind.data ++ (']' :: rest)))
        g hx hind' rfl hg
      rw [show renderElemsTail ind' [x] = renderVal ind' x from rfl]
      simp only [parseElems, hpv]
      rw [skipWs_nl ind.data (']' :: rest) hind rfl]
      simp
  | x :: y :: xs =>
      have hc := jwfList_cons hwf
      have hg : jfuel x ≤ g ∧ jfuelElems (y :: xs) ≤ g := by
        rw [show jfuelElems (x :: y :: xs) =
              1 + max (jfuel x) (jfuelElems (y :: xs)) from rfl] at hfuel
        omega
      rw [show renderElemsTail ind' (x :: y :: xs) =
            renderVal ind' x ++ ",\n" ++ ind' ++ renderElemsTail ind' (y :: xs)
          from rfl]
      simp only [String.data_append, List.append_assoc]
      try simp only [show (",\n" : String).data = [',', '\n'] from rfl]
      simp only [List.cons_append, List.nil_append]
      have hpv := parse_renderVal x ind'
        (',' :: '\n' :: (ind'.data ++ ((renderElemsTail ind' (y :: xs)).data ++
          ('\n' :: (ind.data ++ (']' :: rest)))))) g hc.1 hind' rfl hg.1
      have hgh : goodHead ((renderElemsTail ind' (y :: xs)).data ++
          ('\n' :: (ind.data ++ (']' :: rest)))) = true :=
        goodHead_append _ (renderElemsTail_goodHead _ _ (by simp) hc.2)
      have hs1 : skipWs ('\n' :: (ind'.data ++
          ((renderElemsTail ind' (y :: xs)).data ++
            ('\n' :: (ind.data ++ (']' :: rest)))))) =
          (renderElemsTail ind' (y :: xs)).data ++
            ('\n' :: (ind.data ++ (']' :: rest))) :=
        skipWs_nl _ _ hind' (goodHead_not_ws hgh)
      have hrec := parse_renderElems (y :: xs) (acc ++ [x]) ind' ind rest g
        hc.2 (by simp) hind' hind hg.2
      have hs0 : skipWs (',' :: '\n' :: (ind'.data ++
          ((renderElemsTail ind' (y :: xs)).data ++
            ('\n' :: (ind.data ++ (']' :: rest)))))) =
          ',' :: '\n' :: (ind'.data ++
            ((renderElemsTail ind' (y :: xs)).data ++
              ('\n' :: (ind.data ++ (']' :: rest))))) :=
        skipWs_cons_not _ (by decide)
      simp [parseElems, hpv, hs0, hs1, hrec]
termination_by f
decreasing_by all_goals (simp_wf; omega)

theorem parse_renderMembers (fs acc : List (String × JVal)) (ind' ind : String)
    (rest : List Char) (f : Nat) (hwf : jwfMembers fs = true) (hne : fs ≠ [])
    (hind' : allWsChars ind'.data) (hind : allWsChars ind.data)
    (hfuel : jfuelMembers fs ≤ f) :
    parseMembers f
        ((renderMembersTail ind' fs).data ++
          ('\n' :: (ind.data ++ ('\x7d' :: rest))))
        acc =
      some (.obj (acc ++ fs), rest) := by
  obtain ⟨g, rfl⟩ : ∃ g, f = g + 1 := by
    have := jfuelMembers_pos fs
    cases f with
    | zero => omega
    | succ g => exact ⟨g, rfl⟩
  match fs with
  | [(k, v)] =>
      have hv := (jwfMembers_cons' hwf).1
      have hg : jfuel v ≤ g := by
        simp only [jfuelMembers] at hfuel
        omega
      rw [show renderMembersTail ind' [(k, v)] =
            quoteJString k ++ ": " ++ renderVal ind' v from rfl]
      rw [quoteJString]
      simp only [String.data_append, List.append_assoc]
      try simp only [show (String.mk
            ('"' :: (List.flatten (k.data.map escChar) ++ ['"']))).data =
          '"' :: (List.flatten (k.data.map escChar) ++ ['"']) from rfl]
      try simp only [show (": " : String).data = [':', ' '] from rfl]
      simp only [List.cons_append, List.nil_append, List.append_assoc]
      simp only [parseMembers]
      rw [parseStringBody_escape]
      have hs2 : skipWs (' ' :: ((renderVal ind' v).data ++
          ('\n' :: (ind.data ++ ('\x7d' :: rest))))) =
          (renderVal ind' v).data ++ ('\n' :: (ind.data ++ ('\x7d' :: rest))) := by
        rw [show (' ' :: ((renderVal ind' v).data ++
              ('\n' :: (ind.data ++ ('\x7d' :: rest))))) =
            [' '] ++ ((renderVal ind' v).data ++
              ('\n' :: (ind.data ++ ('\x7d' :: rest)))) from rfl]
        exact skipWs_head _ _ allWsChars_single_space
          (goodHead_not_ws (goodHead_append _ (renderVal_goodHead ind' v hv)))
      have hpv := parse_renderVal v ind'
        ('\n' :: (ind.data ++ ('\x7d' :: rest))) g hv hind' rfl hg
      have hs3 : skipWs ('\n' :: (ind.data ++ ('\x7d' :: rest))) =
          '\x7d' :: rest := skipWs_nl ind.data ('\x7d' :: rest) hind rfl
      have hs0 : skipWs (':' :: ' ' :: ((renderVal ind' v).data ++
          ('\n' :: (ind.data ++ ('\x7d' :: rest))))) =
          ':' :: ' ' :: ((renderVal ind' v).data ++
            ('\n' :: (ind.data ++ ('\x7d' :: rest)))) :=
        skipWs_cons_not _ (by decide)
      simp [hs0, hs2, hpv, hs3, string_mk_data]
  | (k, v) :: kv2 :: fs' =>
      have hc := jwfMembers_cons' hwf
      have hg : jfuel v ≤ g ∧ jfuelMembers (kv2 :: fs') ≤ g := by
        rw [show jfuelMembers ((k, v) :: kv2 :: fs') =
              1 + max (jfuel v) (jfuelMembers (kv2 :: fs')) from rfl] at hfuel
        omega
      rw [show renderMembersTail ind' ((k, v) :: kv2 :: fs') =
            quoteJString k ++ ": " ++ renderVal ind' v ++ ",\n" ++ ind' ++
              renderMembersTail ind' (kv2 :: fs') from rfl]
      rw [quoteJString]
      simp only [String.data_append, List.append_assoc]
      try simp only [show (String.mk
            ('"' :: (List.flatten (k.data.map escChar) ++ ['"']))).data =
          '"' :: (List.flatten (k.data.map escChar) ++ ['"']) from rfl]
      try simp only [show (": " : String).data = [':', ' '] from rfl]
      try simp only [show (",\n" : String).data = [',', '\n'] from rfl]
      simp only [List.cons_append, List.nil_append, List.append_assoc]
      simp only [parseMembers]
      rw [parseStringBody_escape]
      have hs2 : skipWs (' ' :: ((renderVal ind' v).data ++
          (',' :: '\n' :: (ind'.data ++
            ((renderMembersTail ind' (kv2 :: fs')).data ++
              ('\n' :: (ind.data ++ ('\x7d' :: rest)))))))) =
          (renderVal ind' v).data ++
            (',' :: '\n' :: (ind'.data ++
              ((renderMembersTail ind' (kv2 :: fs')).data ++
                ('\n' :: (ind.data ++ ('\x7d' :: rest)))))) := by
        rw [show (' ' :: ((renderVal ind' v).data ++
              (',' :: '\n' :: (ind'.data ++
                ((renderMembersTail ind' (kv2 :: fs')).data ++
                  ('\n' :: (ind.data ++ ('\x7d' :: rest)))))))) =
            [' '] ++ ((renderVal ind' v).data ++
              (',' :: '\n' :: (ind'.data ++
                ((renderMembersTail ind' (kv2 :: fs')).data ++
                  ('\n' :: (ind.data ++ ('\x7d' :: rest))))))) from rfl]
        exact skipWs_head _ _ allWsChars_single_space
          (goodHead_not_ws (goodHead_append _ (renderVal_goodHead ind' v hc.1)))
      have hpv := parse_renderVal v ind'
        (',' :: '\n' :: (ind'.data ++
          ((renderMembersTail ind' (kv2 :: fs')).data ++
            ('\n' :: (ind.data ++ ('\x7d' :: rest)))))) g hc.1 hind' rfl hg.1
      have hgh : goodHead ((renderMembersTail ind' (kv2 :: fs')).data ++
          ('\n' :: (ind.data ++ ('\x7d' :: rest)))) = true :=
        goodHead_append _ (renderMembersTail_goodHead _ _ (by simp))
      have hs3 : skipWs ('\n' :: (ind'.data ++
          ((renderMembersTail ind' (kv2 :: fs')).data ++
            ('\n' :: (ind.data ++ ('\x7d' :: rest)))))) =
          (renderMembersTail ind' (kv2 :: fs')).data ++
            ('\n' :: (ind.data ++ ('\x7d' :: rest))) :=
        skipWs_nl _ _ hind' (goodHead_not_ws hgh)
      have hrec := parse_renderMembers (kv2 :: fs')
        (acc ++ [(String.mk k.data, v)]) ind' ind rest g hc.2 (by simp)
        hind' hind hg.2
      have hs0 : skipWs (':' :: ' ' :: ((renderVal ind' v).data ++
          (',' :: '\n' :: (ind'.data ++
            ((renderMembersTail ind' (kv2 :: fs')).data ++
              ('\n' :: (ind.data ++ ('\x7d' :: rest)))))))) =
          ':' :: ' ' :: ((renderVal ind' v).data ++
            (',' :: '\n' :: (ind'.data ++
              ((renderMembersTail ind' (kv2 :: fs')).data ++
                ('\n' :: (ind.data ++ ('\x7d' :: rest))))))) :=
        skipWs_cons_not _ (by decide)
      have hs4 : skipWs (',' :: '\n' :: (ind'.data ++
          ((renderMembersTail ind' (kv2 :: fs')).data ++
            ('\n' :: (ind.data ++ ('\x7d' :: rest)))))) =
          ',' :: '\n' :: (ind'.data ++
            ((renderMembersTail ind' (kv2 :: fs')).data ++
              ('\n' :: (ind.data ++ ('\x7d' :: rest))))) :=
        skipWs_cons_not _ (by decide)
      simp [hs0, hs2, hpv, hs4, hs3, hrec, string_mk_data]
termination_by f
decreasing_by all_goals (simp_wf; omega)

end

/-! ### Fuel bounds in terms of rendered length -/

theorem renderVal_length_pos (ind : String) (v : JVal) (h : jwf v = true) :
    1 ≤ (renderVal ind v).length := by
  obtain ⟨c, t, hct⟩ := goodHead_exists (renderVal_goodHead ind v h)
  rw [← string_data_length, hct]
  simp

theorem quoteJString_length_ge_two (k : String) :
    2 ≤ (quoteJString k).length := by
  rw [quoteJString, ← string_data_length]
  simp

mutual

theorem jfuel_le_renderLen (v : JVal) (ind : String) (h : jwf v = true) :
    jfuel v ≤ (renderVal ind v).length := by
  cases v with
  | null =>
      rw [show renderVal ind .null = "null" from rfl]
      decide
  | undef => exact absurd h (by simp [jwf])
  | nan => exact absurd h (by simp [jwf])
  | bool b =>
      cases b with
      | true =>
          rw [show renderVal ind (.bool true) = "true" from rfl]
          decide
      | false =>
          rw [show renderVal ind (.bool false) = "false" from rfl]
          decide
  | num token =>
      simp only [jwf, Bool.and_eq_true] at h
      have hnil : token.data ≠ [] := by
        intro he
        rw [he] at h
        exact absurd h.2 (by decide)
      have : 1 ≤ token.data.length := List.length_pos.mpr hnil
      rw [show renderVal ind (.num token) = token from rfl]
      rw [show jfuel (.num token) = 1 from rfl, ← string_data_length]
      omega
  | str s =>
      rw [show renderVal ind (.str s) = quoteJString s from rfl,
        show jfuel (.str s) = 1 from rfl]
      have := quoteJString_length_ge_two s
      omega
  | arr xs =>
      cases xs with
      | nil =>
          rw [show renderVal ind (.arr []) = "[]" from rfl]
          decide
      | cons x xs =>
          have hwfl : jwfList (x :: xs) = true := by simpa [jwf] using h
          have hb := jfuelElems_le (x :: xs) (ind ++ "  ") (by simp) hwfl
          rw [show jfuel (.arr (x :: xs)) = 1 + jfuelElems (x :: xs) from rfl]
          rw [renderVal, renderElems_eq_tail _ _ (by simp)]
          simp only [String.length_append]
          have h1 : ("[\n" : String).length = 2 := rfl
          have h2 : ("\n" : String).length = 1 := rfl
          have h3 : ("]" : String).length = 1 := rfl
          omega
  | obj fs =>
      have hwfm : jwfMembers fs = true := by simpa [jwf] using h
      cases fs with
      | nil =>
          rw [show renderVal ind (.obj []) = "\x7b\x7d" from rfl]
          decide
      | cons kv fs' =>
          have hb := jfuelMembers_le (kv :: fs') (ind ++ "  ") (by simp) hwfm
          rw [show jfuel (.obj (kv :: fs')) = 1 + jfuelMembers (kv :: fs')
            from rfl]
          rw [renderVal_obj_cons ind (kv :: fs') (by simp) hwfm]
          simp only [String.length_append]
          have h1 : ("\x7b\n" : String).length = 2 := rfl
          have h2 : ("\n" : String).length = 1 := rfl
          have h3 : ("\x7d" : String).length = 1 := rfl
          omega

theorem jfuelElems_le (l : List JVal) (ind : String) (hne : l ≠ [])
    (h : jwfList l = true) :
    jfuelElems l ≤ (renderElemsTail ind l).length + 1 := by
  match l with
  | [x] =>
      have hx := (jwfList_cons h).1
      have ha := jfuel_le_renderLen x ind hx
      have hp := renderVal_length_pos ind x hx
      rw [show jfuelElems [x] = 1 + max (jfuel x) 1 from rfl,
        show renderElemsTail ind [x] = renderVal ind x from rfl]
      omega
  | x :: y :: xs =>
      have hc := jwfList_cons h
      have ha := jfuel_le_renderLen x ind hc.1
      have hb := jfuelElems_le (y :: xs) ind (by simp) hc.2
      have hp := renderVal_length_pos ind x hc.1
      rw [show jfuelElems (x :: y :: xs) =
            1 + max (jfuel x) (jfuelElems (y :: xs)) from rfl,
        show renderElemsTail ind (x :: y :: xs) =
            renderVal ind x ++ ",\n" ++ ind ++ renderElemsTail ind (y :: xs)
          from rfl]
      simp only [String.length_append]
      have h1 : (",\n" : String).length = 2 := rfl
      omega

theorem jfuelMembers_le (fs : List (String × JVal)) (ind : String)
    (hne : fs ≠ []) (h : jwfMembers fs = true) :
    jfuelMembers fs ≤ (renderMembersTail ind fs).length + 1 := by
  match fs with
  | [kv] =>
      have hv := (jwfMembers_cons' (k := kv.1) (v := kv.2) (by simpa using h)).1
      have ha := jfuel_le_renderLen kv.2 ind hv
      rw [show jfuelMembers [kv] = 1 + max (jfuel kv.2) 1 from rfl,
        show renderMembersTail ind [kv] =
            quoteJString kv.1 ++ ": " ++ renderVal ind kv.2 from rfl]
      simp only [String.length_append]
      have h1 : (": " : String).length = 2 := rfl
      have h2 := quoteJString_length_ge_two kv.1
      omega
  | kv :: kv2 :: fs' =>
      have hv := (jwfMembers_cons' (k := kv.1) (v := kv.2) (by simpa using h)).1
      have hrest : jwfMembers (kv2 :: fs') = true :=
        (jwfMembers_cons' (k := kv.1) (v := kv.2) (by simpa using h)).2
      have ha := jfuel_le_renderLen kv.2 ind hv
      have hb := jfuelMembers_le (kv2 :: fs') ind (by simp) hrest
      have h2 := quoteJString_length_ge_two kv.1
      rw [show jfuelMembers (kv :: kv2 :: fs') =
            1 + max (jfuel kv.2) (jfuelMembers (kv2 :: fs')) from rfl,
        show renderMembersTail ind (kv :: kv2 :: fs') =
            quoteJString kv.1 ++ ": " ++ renderVal ind kv.2 ++ ",\n" ++ ind ++
              renderMembersTail ind (kv2 :: fs') from rfl]
      simp only [String.length_append]
      have h1 : (": " : String).length = 2 := rfl
      have h3 : (",\n" : String).length = 2 := rfl
      omega

end

/-- Parsing the output of `formatAsJSON` reproduces any
JSON-representable payload. -/
theorem jsonParse_formatAsJSON (data : JVal) (h : jwf data = true) :
    jsonParse (formatAsJSON data) = some data := by
  unfold jsonParse formatAsJSON
  rw [skipWs_id (goodHead_not_ws (renderVal_goodHead "" data h))]
  have hfuel : jfuel data ≤ (renderVal "" data).length + 1 := by
    have := jfuel_le_renderLen data "" h
    omega
  have hp := parse_renderVal data "" [] ((renderVal "" data).length + 1) h
    (by intro c hc; cases hc) rfl hfuel
  rw [List.append_nil] at hp
  rw [hp]
  rfl

/-- **C4**: for every JSON-representable payload, `formatAsJSON` (the
2-space-indented `JSON.stringify`) round-trips: parsing its output
reproduces the payload exactly — nested mappings and arrays included,
object key order equal to insertion order (object members are ordered
lists and are reproduced as the same list), and numeric values exact
(numeric tokens are reproduced verbatim). -/
theorem formatAsJSON_roundtrip (data : JVal) (h : jwf data = true) :
    jsonParse (formatAsJSON data) = some data :=
  jsonParse_formatAsJSON data h

/-- A concrete payload in the shape of an upstream rates response. -/
def samplePayload : JVal :=
  .obj [("base", .str "EUR"), ("date", .str "2024-01-01"),
    ("rates", .obj [("USD", .num "1.08"), ("GBP", .num "0.86")]),
    ("list", .arr [.null, .bool true, .str "a\"b"])]

/-- Witness for `formatAsJSON_roundtrip` at a concrete nested payload. -/
theorem formatAsJSON_roundtrip_witness :
    jwf samplePayload = true ∧
    jsonParse (formatAsJSON samplePayload) = some samplePayload :=
  ⟨by decide, formatAsJSON_roundtrip samplePayload (by decide)⟩

/-! ### Dates (JS `new Date("YYYY-MM-DD")` and `new Date()`)

A regex-validated `YYYY-MM-DD` argument parses as midnight UTC of the
proleptic-Gregorian calendar date; its timestamp is the civil day number
times the milliseconds per day.  `new Date()` is an arbitrary
nonnegative timestamp `now`.  Comparison of `Date` objects compares
timestamps. -/

/-- A parsed `YYYY-MM-DD` tool argument (the zod regex guarantees the
three numeric components). -/
structure DateYMD where
  year : Nat
  month : Nat
  day : Nat

def msPerDay : Int := 86400000

/-- Civil day number since 1970-01-01 of a Gregorian date (the standard
days-from-civil computation; `/` on `Int` here is floor division, exact
for these operands). -/
def daysFromCivil (dt : DateYMD) : Int :=
  let y : Int := if dt.month ≤ 2 then (dt.year : Int) - 1 else (dt.year : Int)
  let era : Int := y / 400
  let yoe : Int := y - era * 400
  let mp : Int := ((dt.month : Int) + 9) % 12
  let doy : Int := (153 * mp + 2) / 5 + (dt.day : Int) - 1
  let doe : Int := yoe * 365 + yoe / 4 - yoe / 100 + doy
  era * 146097 + doe - 719468

/-- The timestamp (ms since epoch) of `new Date("YYYY-MM-DD")`. -/
def dateTs (dt : DateYMD) : Int := daysFromCivil dt * msPerDay

/-- Decimal rendering of a numeric component padded with leading zeros. -/
def padNum (n len : Nat) : String :=
  String.mk (padLeftZeros (natDigits n) len)

/-- The `YYYY-MM-DD` string of a parsed date argument. -/
def ymdString (dt : DateYMD) : String :=
  padNum dt.year 4 ++ "-" ++ padNum dt.month 2 ++ "-" ++ padNum dt.day 2

/-! ### Upstream requests and tool responses -/

/-- One upstream GET issued through `makeApiRequest`: endpoint path and
query parameters after the array-to-comma-joined-string conversion. -/
structure ApiRequest where
  endpoint : String
  params : List (String × String)

/-- The protocol response of one tool call: its text content and the
`isError` flag of the response envelope. -/
structure ToolResponse where
  text : String
  isError : Bool

/-- A handler run: the upstream requests it issued and its response. -/
structure HandlerOutput where
  requests : List ApiRequest
  response : ToolResponse

/-- JS `s.toUpperCase()` on ASCII currency codes. -/
def jsToUpperCase (s : String) : String :=
  String.mk (s.data.map Char.toUpper)

/-- The `base`/`symbols` query parameters shared by the rates handlers:
`if (base) params.base = ...; if (symbols) params.symbols = ...`, with
the symbol array comma-joined as `makeApiRequest` does. -/
def ratesParams (base : Option String) (symbols : Option (List String)) :
    List (String × String) :=
  (match base with
   | some b => [("base", jsToUpperCase b)]
   | none => []) ++
  (match symbols with
   | some syms =>
       [("symbols", String.intercalate "," (syms.map jsToUpperCase))]
   | none => [])

/-! ### Payloads as JSON values -/

/-- The smallest power of ten clearing the denominator, when one exists
below 51 (always, for a value that came from a JS double). -/
def decExp (q : Rat) : Option Nat :=
  (List.range 51).find? (fun e => (q * (10 : Rat) ^ e).den = 1)

/-- The canonical decimal token under which a JS engine prints the
number `q`: sign, integer digits, and fractional digits at the smallest
clearing exponent.  (The fallback for a non-decimal rational is
unreachable for values of JS doubles.) -/
def ratToken (q : Rat) : String :=
  match decExp q with
  | some e =>
      let n := (q * (10 : Rat) ^ e).num
      let sign : String := if n < 0 then "-" else ""
      let digits := padLeftZeros (natDigits n.natAbs) (e + 1)
      if e = 0 then sign ++ String.mk digits
      else
        sign ++ String.mk (digits.take (digits.length - e)) ++ "." ++
          String.mk (digits.drop (digits.length - e))
  | none => "0"

/-- A rates record as the JSON value it denotes. -/
def ratesToJVal (rates : List (String × Rat)) : JVal :=
  .obj (rates.map (fun e => (e.1, .num (ratToken e.2))))

/-- A `FrankfurterBaseResponse` as the JSON value it denotes. -/
def baseRespToJVal (d : FrankfurterBaseResponse) : JVal :=
  .obj [("base", .str d.base), ("date", .str d.date),
    ("rates", ratesToJVal d.rates)]

/-- A `FrankfurterTimeSeriesResponse` as the JSON value it denotes. -/
def tsRespToJVal (d : FrankfurterTimeSeriesResponse) : JVal :=
  .obj [("base", .str d.base), ("start_date", .str d.start_date),
    ("end_date", .str d.end_date),
    ("rates", .obj (d.rates.map (fun e => (e.1, ratesToJVal e.2))))]

/-! ### Tool handlers (src/index.ts, `CallToolRequestSchema` handler)

Each handler is a pure function of its validated arguments and of the
upstream payload the oracle would return for the request it issues; the
`requests` field records the upstream GETs actually issued, so a
short-circuiting guard is visible as `requests = []`. -/

/-- Validated arguments of `frankfurter_convert_currency`. -/
structure ConvertArgs where
  from_ : String
  to_ : String
  amount : Rat
  date : Option String
  response_format : ResponseFormat

/-- The `frankfurter_convert_currency` handler (src/index.ts lines
382–425).  `rate = data.rates[to.toUpperCase()]` is unguarded: when the
key is missing, `rate` is `undefined` and `result = amount * rate` is
`NaN`.  On the markdown path `rate.toFixed(4)` then throws a
`TypeError`, which the handler's outer `catch` turns into an
error-flagged `Error: ...` response; on the JSON path `JSON.stringify`
drops the `undefined` `rate` property and serializes the `NaN` `result`
as `null`. -/
def convertCurrencyHandler (args : ConvertArgs)
    (data : FrankfurterBaseResponse) : HandlerOutput :=
  let endpoint : String :=
    match args.date with
    | some d => "/" ++ d
    | none => "/latest"
  let params : List (String × String) :=
    [("from", jsToUpperCase args.from_), ("to", jsToUpperCase args.to_)]
  let rate : Option Rat := jsGet (jsToUpperCase args.to_) data.rates
  let response : ToolResponse :=
    match args.response_format with
    | .json =>
        let rateJ : JVal :=
          match rate with
          | some r => .num (ratToken r)
          | none => .undef
        let resultJ : JVal :=
          match rate with
          | some r => .num (ratToken (args.amount * r))
          | none => .nan
        { text := formatAsJSON (.obj
            [("from", .str (jsToUpperCase args.from_)),
             ("to", .str (jsToUpperCase args.to_)),
             ("amount", .num (ratToken args.amount)),
             ("rate", rateJ),
             ("result", resultJ),
             ("date", .str data.date)]),
          isError := false }
    | .markdown =>
        match rate with
        | some r =>
            { text := formatConversionAsMarkdown (jsToUpperCase args.from_)
                (jsToUpperCase args.to_) args.amount r (args.amount * r)
                data.date,
              isError := false }
        | none =>
            { text := "Error: Cannot read properties of undefined (reading \x27toFixed\x27)",
              isError := true }
  { requests := [{ endpoint := endpoint, params := params }],
    response := response }

/-- Validated arguments of `frankfurter_get_latest_rates`. -/
structure LatestRatesArgs where
  base : Option String
  symbols : Option (List String)
  response_format : ResponseFormat

/-- The `frankfurter_get_latest_rates` handler (src/index.ts lines
427–450): one upstream GET, rendered per format, returned directly. -/
def getLatestRatesHandler (args : LatestRatesArgs)
    (data : FrankfurterBaseResponse) : HandlerOutput :=
  let content : String :=
    match args.response_format with
    | .json => formatAsJSON (baseRespToJVal data)
    | .markdown => formatRatesAsMarkdown data.rates data.base data.date
  let req : ApiRequest :=
    { endpoint := "/latest", params := ratesParams args.base args.symbols }
  { requests := [req], response := { text := content, isError := false } }

/-- Validated arguments of `frankfurter_get_historical_rates`. -/
structure HistoricalRatesArgs where
  date : DateYMD
  base : Option String
  symbols : Option (List String)
  response_format : ResponseFormat

/-- The `frankfurter_get_historical_rates` handler (src/index.ts lines
452–490): rejects a future date (`new Date(date) > new Date()`) before
any upstream call, otherwise issues one GET and renders per format. -/
def getHistoricalRatesHandler (args : HistoricalRatesArgs) (now : Int)
    (data : FrankfurterBaseResponse) : HandlerOutput :=
  if dateTs args.date > now then
    let msg : String := "Error: Date \x27" ++ ymdString args.date ++
      "\x27 is in the future. For current rates, use frankfurter_get_latest_rates instead."
    { requests := [], response := { text := msg, isError := true } }
  else
    let content : String :=
      match args.response_format with
      | .json => formatAsJSON (baseRespToJVal data)
      | .markdown => formatRatesAsMarkdown data.rates data.base data.date
    let req : ApiRequest :=
      { endpoint := "/" ++ ymdString args.date,
        params := ratesParams args.base args.symbols }
    { requests := [req], response := { text := content, isError := false } }

/-- Validated arguments of `frankfurter_get_time_series`. -/
structure TimeSeriesArgs where
  start_date : DateYMD
  end_date : DateYMD
  base : Option String
  symbols : Option (List String)
  response_format : ResponseFormat

/-- The `frankfurter_get_time_series` handler (src/index.ts lines
492–547): rejects `startDate >= endDate` before any upstream call;
otherwise issues one GET, renders per format (the markdown symbol list
defaulting to the keys of the first date's entry), and — alone among the
five tools — passes the rendered content through `formatResponse`, whose
`data` argument is the already-rendered string. -/
def getTimeSeriesHandler (args : TimeSeriesArgs)
    (data : FrankfurterTimeSeriesResponse) : HandlerOutput :=
  if dateTs args.start_date ≥ dateTs args.end_date then
    let msg : String := "Error: start_date \x27" ++
      ymdString args.start_date ++
      "\x27 must be before end_date \x27" ++ ymdString args.end_date ++ "\x27."
    { requests := [], response := { text := msg, isError := true } }
  else
    let content : String :=
      match args.response_format with
      | .json => formatAsJSON (tsRespToJVal data)
      | .markdown =>
          let symbolList : List String :=
            match args.symbols with
            | some syms => syms.map jsToUpperCase
            | none => ((data.rates.map Prod.snd).head?.getD []).map Prod.fst
          formatTimeSeriesAsMarkdown data.rates data.base symbolList
    let content2 : String := formatResponse (.str content)
      args.response_format
      (match args.response_format with
       | .markdown => none
       | _ => some (fun _ => content))
    let req : ApiRequest :=
      { endpoint := "/" ++ ymdString args.start_date ++ ".." ++
          ymdString args.end_date,
        params := ratesParams args.base args.symbols }
    { requests := [req], response := { text := content2, isError := false } }

/-- The `frankfurter_list_currencies` handler (src/index.ts lines
549–567). -/
def listCurrenciesHandler (response_format : ResponseFormat)
    (data : List (String × String)) : HandlerOutput :=
  let content : String :=
    match response_format with
    | .json => formatAsJSON (.obj (data.map (fun e => (e.1, .str e.2))))
    | .markdown => formatCurrenciesAsMarkdown data
  { requests := [{ endpoint := "/currencies", params := [] }],
    response := { text := content, isError := false } }

/-! ### Guard behaviour of the date-checked handlers -/

theorem msPerDay_pos : (0 : Int) < msPerDay := by decide

/-- **C6**: a `get_historical_rates` call whose date is strictly later
than the current UTC date — `cd` being the civil day number containing
the instant `now` — returns the error-flagged guidance text directing
the caller to the latest-rates tool and issues no upstream request. -/
theorem getHistoricalRates_future_date (args : HistoricalRatesArgs)
    (now cd : Int) (data : FrankfurterBaseResponse)
    (_hcd1 : cd * msPerDay ≤ now) (hcd2 : now < (cd + 1) * msPerDay)
    (hfut : cd < daysFromCivil args.date) :
    (getHistoricalRatesHandler args now data).requests = [] ∧
    (getHistoricalRatesHandler args now data).response.isError = true ∧
    (getHistoricalRatesHandler args now data).response.text =
      "Error: Date \x27" ++ ymdString args.date ++
        "\x27 is in the future. For current rates, use frankfurter_get_latest_rates instead." := by
  have h1 : (cd + 1) * msPerDay ≤ daysFromCivil args.date * msPerDay := by
    have h2 : cd + 1 ≤ daysFromCivil args.date := by omega
    exact mul_le_mul_of_nonneg_right h2 (by decide)
  have hgt : dateTs args.date > now := by
    unfold dateTs
    omega
  simp [getHistoricalRatesHandler, hgt]

/-- The civil day of 2024-01-01 and the timestamp of its midnight, used
as the concrete `now` of the witnesses. -/
def sampleNow : Int := 1704067200000

/-- Witness for `getHistoricalRates_future_date`: on 2024-01-01, asking
for 2030-01-05 short-circuits with the guidance error. -/
theorem getHistoricalRates_future_date_witness :
    (19723 * msPerDay ≤ sampleNow ∧ sampleNow < (19723 + 1) * msPerDay ∧
      (19723 : Int) < daysFromCivil ⟨2030, 1, 5⟩) ∧
    ((getHistoricalRatesHandler ⟨⟨2030, 1, 5⟩, none, none, .markdown⟩
        sampleNow ⟨"EUR", "2024-01-01", []⟩).requests = [] ∧
      (getHistoricalRatesHandler ⟨⟨2030, 1, 5⟩, none, none, .markdown⟩
        sampleNow ⟨"EUR", "2024-01-01", []⟩).response.isError = true) :=
  ⟨⟨by decide, by decide, by decide⟩,
   ⟨(getHistoricalRates_future_date ⟨⟨2030, 1, 5⟩, none, none, .markdown⟩
       sampleNow 19723 ⟨"EUR", "2024-01-01", []⟩ (by decide) (by decide)
       (by decide)).1,
    (getHistoricalRates_future_date ⟨⟨2030, 1, 5⟩, none, none, .markdown⟩
       sampleNow 19723 ⟨"EUR", "2024-01-01", []⟩ (by decide) (by decide)
       (by decide)).2.1⟩⟩

/-- **C7**: a `get_time_series` call with `start_date = end_date` or
`start_date` after `end_date` returns the error-flagged guidance
response and issues no upstream request; when `start_date` is strictly
before `end_date` the guard passes and exactly the one upstream request
is issued with a success-flagged response. -/
theorem getTimeSeries_range_guard (args : TimeSeriesArgs)
    (data : FrankfurterTimeSeriesResponse) :
    ((args.start_date = args.end_date ∨
        daysFromCivil args.end_date < daysFromCivil args.start_date) →
      (getTimeSeriesHandler args data).requests = [] ∧
      (getTimeSeriesHandler args data).response.isError = true ∧
      (getTimeSeriesHandler args data).response.text =
        "Error: start_date \x27" ++ ymdString args.start_date ++
          "\x27 must be before end_date \x27" ++ ymdString args.end_date ++
          "\x27.") ∧
    (daysFromCivil args.start_date < daysFromCivil args.end_date →
      (getTimeSeriesHandler args data).requests =
        [{ endpoint := "/" ++ ymdString args.start_date ++ ".." ++
             ymdString args.end_date,
           params := ratesParams args.base args.symbols }] ∧
      (getTimeSeriesHandler args data).response.isError = false) := by
  constructor
  · intro h
    have hge : dateTs args.start_date ≥ dateTs args.end_date := by
      rcases h with h | h
      · rw [h]
      · unfold dateTs
        exact le_of_lt ((mul_lt_mul_right msPerDay_pos).mpr h)
    simp [getTimeSeriesHandler, hge]
  · intro h
    have hlt : ¬dateTs args.start_date ≥ dateTs args.end_date := by
      push_neg
      unfold dateTs
      exact (mul_lt_mul_right msPerDay_pos).mpr h
    simp [getTimeSeriesHandler, hlt]

/-- Witness for `getTimeSeries_range_guard`: equal dates short-circuit,
and a proper range issues the upstream request. -/
theorem getTimeSeries_range_guard_witness :
    ((getTimeSeriesHandler
        ⟨⟨2024, 1, 10⟩, ⟨2024, 1, 10⟩, none, none, .markdown⟩
        ⟨"EUR", "2024-01-01", "2024-01-31", []⟩).requests = [] ∧
      (getTimeSeriesHandler
        ⟨⟨2024, 1, 10⟩, ⟨2024, 1, 10⟩, none, none, .markdown⟩
        ⟨"EUR", "2024-01-01", "2024-01-31", []⟩).response.isError = true) ∧
    (daysFromCivil (⟨2024, 1, 1⟩ : DateYMD) <
        daysFromCivil (⟨2024, 1, 31⟩ : DateYMD) ∧
      (getTimeSeriesHandler
        ⟨⟨2024, 1, 1⟩, ⟨2024, 1, 31⟩, none, none, .markdown⟩
        ⟨"EUR", "2024-01-01", "2024-01-31", []⟩).response.isError = false) :=
  ⟨⟨((getTimeSeries_range_guard
        ⟨⟨2024, 1, 10⟩, ⟨2024, 1, 10⟩, none, none, .markdown⟩
        ⟨"EUR", "2024-01-01", "2024-01-31", []⟩).1 (Or.inl rfl)).1,
    ((getTimeSeries_range_guard
        ⟨⟨2024, 1, 10⟩, ⟨2024, 1, 10⟩, none, none, .markdown⟩
        ⟨"EUR", "2024-01-01", "2024-01-31", []⟩).1 (Or.inl rfl)).2.1⟩,
   ⟨by decide,
    ((getTimeSeries_range_guard
        ⟨⟨2024, 1, 1⟩, ⟨2024, 1, 31⟩, none, none, .markdown⟩
        ⟨"EUR", "2024-01-01", "2024-01-31", []⟩).2 (by decide)).2⟩⟩

/-! ### Double serialization in the time-series handler -/

/-- **C9**: on the JSON format, a successful `get_time_series` call
returns the serialization applied twice — the payload is rendered with
`formatAsJSON`, and that string is passed as the `data` argument of
`formatResponse`, which serializes it again — so (when under the size
limit) parsing the returned text once yields a quoted string, not the
time-series object. -/
theorem getTimeSeries_json_double_serialization (args : TimeSeriesArgs)
    (data : FrankfurterTimeSeriesResponse)
    (hfmt : args.response_format = .json)
    (hrange : daysFromCivil args.start_date < daysFromCivil args.end_date) :
    (getTimeSeriesHandler args data).response.text =
      (truncateIfNeeded
        (formatAsJSON (.str (formatAsJSON (tsRespToJVal data))))
        ResponseFormat.json).1 ∧
    ((formatAsJSON (.str (formatAsJSON (tsRespToJVal data)))).length ≤
        CHARACTER_LIMIT →
      jsonParse (getTimeSeriesHandler args data).response.text =
        some (.str (formatAsJSON (tsRespToJVal data)))) ∧
    (∀ fields, JVal.str (formatAsJSON (tsRespToJVal data)) ≠
      JVal.obj fields) := by
  have hlt : ¬dateTs args.start_date ≥ dateTs args.end_date := by
    push_neg
    unfold dateTs
    exact (mul_lt_mul_right msPerDay_pos).mpr hrange
  have htext : (getTimeSeriesHandler args data).response.text =
      (truncateIfNeeded
        (formatAsJSON (.str (formatAsJSON (tsRespToJVal data))))
        ResponseFormat.json).1 := by
    simp [getTimeSeriesHandler, hlt, hfmt, formatResponse]
  refine ⟨htext, ?_, fun fields h => JVal.noConfusion h⟩
  intro hlen
  rw [htext, truncateIfNeeded_short _ _ hlen]
  exact jsonParse_formatAsJSON (.str (formatAsJSON (tsRespToJVal data))) rfl

/-- The concrete time-series call of the C9 witness. -/
def tsArgsJson : TimeSeriesArgs :=
  ⟨⟨2024, 1, 1⟩, ⟨2024, 1, 31⟩, none, none, .json⟩

/-- The concrete upstream payload of the C9 witness. -/
def tsDataSmall : FrankfurterTimeSeriesResponse :=
  ⟨"EUR", "2024-01-01", "2024-01-31", [("2024-01-01", [])]⟩

/-- Witness for `getTimeSeries_json_double_serialization` at a concrete
call. -/
theorem getTimeSeries_json_double_serialization_witness :
    (daysFromCivil (⟨2024, 1, 1⟩ : DateYMD) <
        daysFromCivil (⟨2024, 1, 31⟩ : DateYMD)) ∧
    ((formatAsJSON (.str (formatAsJSON (tsRespToJVal tsDataSmall)))).length ≤
        CHARACTER_LIMIT) ∧
    jsonParse (getTimeSeriesHandler tsArgsJson tsDataSmall).response.text =
      some (.str (formatAsJSON (tsRespToJVal tsDataSmall))) :=
  ⟨by decide, by decide,
   (getTimeSeries_json_double_serialization tsArgsJson tsDataSmall rfl
     (by decide)).2.1 (by decide)⟩

/-! ### The unguarded rate lookup in the convert handler -/

theorem formatAsJSON_undef_nan (a b amountTok d : String) :
    formatAsJSON (.obj
      [("from", .str a), ("to", .str b), ("amount", .num amountTok),
       ("rate", .undef), ("result", .nan), ("date", .str d)]) =
    formatAsJSON (.obj
      [("from", .str a), ("to", .str b), ("amount", .num amountTok),
       ("result", .null), ("date", .str d)]) := rfl

/-- **C10**: the rate lookup in `frankfurter_convert_currency` is
unguarded.  When the uppercased `to` code is present in the upstream
rates, the tool succeeds with `result = amount * rate` in both formats;
when it is missing, the markdown path returns an error-flagged response
(the undefined rate's `toFixed` throws, caught by the generic handler),
while the JSON path returns a success-flagged response whose `rate`
field is omitted and whose `result` serializes as `null`. -/
theorem convertCurrency_rate_lookup (args : ConvertArgs)
    (data : FrankfurterBaseResponse) :
    (∀ r, jsGet (jsToUpperCase args.to_) data.rates = some r →
      (convertCurrencyHandler args data).response.isError = false ∧
      (args.response_format = .markdown →
        (convertCurrencyHandler args data).response.text =
          formatConversionAsMarkdown (jsToUpperCase args.from_)
            (jsToUpperCase args.to_) args.amount r (args.amount * r)
            data.date) ∧
      (args.response_format = .json →
        (convertCurrencyHandler args data).response.text =
          formatAsJSON (.obj
            [("from", .str (jsToUpperCase args.from_)),
             ("to", .str (jsToUpperCase args.to_)),
             ("amount", .num (ratToken args.amount)),
             ("rate", .num (ratToken r)),
             ("result", .num (ratToken (args.amount * r))),
             ("date", .str data.date)]))) ∧
    (jsGet (jsToUpperCase args.to_) data.rates = none →
      (args.response_format = .markdown →
        (convertCurrencyHandler args data).response.isError = true ∧
        (convertCurrencyHandler args data).response.text =
          "Error: Cannot read properties of undefined (reading \x27toFixed\x27)") ∧
      (args.response_format = .json →
        (convertCurrencyHandler args data).response.isError = false ∧
        (convertCurrencyHandler args data).response.text =
          formatAsJSON (.obj
            [("from", .str (jsToUpperCase args.from_)),
             ("to", .str (jsToUpperCase args.to_)),
             ("amount", .num (ratToken args.amount)),
             ("result", .null),
             ("date", .str data.date)]))) := by
  constructor
  · intro r hr
    refine ⟨?_, fun hm => ?_, fun hj => ?_⟩
    · cases hfmt : args.response_format <;>
        simp [convertCurrencyHandler, hr, hfmt]
    · simp [convertCurrencyHandler, hr, hm]
    · simp [convertCurrencyHandler, hr, hj]
  · intro hr
    refine ⟨fun hm => ?_, fun hj => ?_⟩
    · constructor <;> simp [convertCurrencyHandler, hr, hm]
    · rw [← formatAsJSON_undef_nan]
      constructor <;> simp [convertCurrencyHandler, hr, hj]

/-- Witness for `convertCurrency_rate_lookup`: present and missing rate
at concrete calls. -/
theorem convertCurrency_rate_lookup_witness :
    (jsGet "USD" [("USD", (27 : Rat) / 25)] = some ((27 : Rat) / 25) ∧
      (convertCurrencyHandler ⟨"EUR", "USD", 100, none, .markdown⟩
        ⟨"EUR", "2024-01-01", [("USD", (27 : Rat) / 25)]⟩).response.isError =
        false) ∧
    (jsGet "JPY" [("USD", (27 : Rat) / 25)] = none ∧
      (convertCurrencyHandler ⟨"EUR", "JPY", 100, none, .markdown⟩
        ⟨"EUR", "2024-01-01", [("USD", (27 : Rat) / 25)]⟩).response.isError =
        true ∧
      (convertCurrencyHandler ⟨"EUR", "JPY", 100, none, .json⟩
        ⟨"EUR", "2024-01-01", [("USD", (27 : Rat) / 25)]⟩).response.isError =
        false) :=
  ⟨⟨rfl,
    ((convertCurrency_rate_lookup ⟨"EUR", "USD", 100, none, .markdown⟩
        ⟨"EUR", "2024-01-01", [("USD", (27 : Rat) / 25)]⟩).1
      ((27 : Rat) / 25) rfl).1⟩,
   ⟨rfl,
    (((convertCurrency_rate_lookup ⟨"EUR", "JPY", 100, none, .markdown⟩
        ⟨"EUR", "2024-01-01", [("USD", (27 : Rat) / 25)]⟩).2 rfl).1 rfl).1,
    (((convertCurrency_rate_lookup ⟨"EUR", "JPY", 100, none, .json⟩
        ⟨"EUR", "2024-01-01", [("USD", (27 : Rat) / 25)]⟩).2 rfl).2 rfl).1⟩⟩

/-! ### Truncation is not applied uniformly across the tools -/

theorem formatRatesAsMarkdown_bigBase_length :
    (formatRatesAsMarkdown [] bigContent "2024-01-01").length = 25087 := by
  simp only [formatRatesAsMarkdown, List.map_nil, String.length_append,
    bigContent_length]
  decide

/-- **C1** (code-bug evidence): only the time-series handler passes its
rendered output through the truncation step.  A latest-rates response
whose rendering exceeds 25000 characters is returned untruncated — its
text differs from the truncated form of the same rendering — while a
time-series success response is exactly `truncateIfNeeded` applied (to
the re-serialized content) as the last step. -/
theorem truncation_not_uniform :
    CHARACTER_LIMIT <
      (getLatestRatesHandler ⟨none, none, .markdown⟩
        ⟨bigContent, "2024-01-01", []⟩).response.text.length ∧
    (getLatestRatesHandler ⟨none, none, .markdown⟩
        ⟨bigContent, "2024-01-01", []⟩).response.text ≠
      (truncateIfNeeded (formatRatesAsMarkdown [] bigContent "2024-01-01")
        ResponseFormat.markdown).1 ∧
    (getTimeSeriesHandler ⟨⟨2024, 1, 1⟩, ⟨2024, 1, 31⟩, none, none, .markdown⟩
        ⟨"EUR", "2024-01-01", "2024-01-31", []⟩).response.text =
      (truncateIfNeeded
        (formatAsJSON (.str (formatTimeSeriesAsMarkdown [] "EUR" [])))
        ResponseFormat.markdown).1 := by
  have h1 : (getLatestRatesHandler ⟨none, none, .markdown⟩
      ⟨bigContent, "2024-01-01", []⟩).response.text =
      formatRatesAsMarkdown [] bigContent "2024-01-01" := rfl
  have hbig : CHARACTER_LIMIT <
      (formatRatesAsMarkdown [] bigContent "2024-01-01").length := by
    rw [formatRatesAsMarkdown_bigBase_length]
    decide
  refine ⟨?_, ?_, ?_⟩
  · rw [h1]
    exact hbig
  · rw [h1]
    intro heq
    have h2 := congrArg String.length heq
    rw [formatRatesAsMarkdown_bigBase_length,
      truncateIfNeeded_long_length _ _ hbig] at h2
    exact absurd h2 (by decide)
  · have hlt : ¬dateTs (⟨2024, 1, 1⟩ : DateYMD) ≥
        dateTs (⟨2024, 1, 31⟩ : DateYMD) := by decide
    simp [getTimeSeriesHandler, hlt, formatResponse]

end Frankfurter
